import Mathlib

/-!
Verification of the atlasc texture-atlas builder (`src/atlasc.c`) against its
natural-language specification.

The development shallowly embeds the program:

* machine integers are modelled as `ℤ` (with an explicit 32-bit wrap where the
  source overflows), pixel masks as `ℤ → ℤ → Bool`;
* `float` arithmetic inside `atlasc__offset_pt` is modelled over `ℝ`
  (the C cast `(int)` is truncation toward zero, embedded as `cIntOfReal`);
* the two unbounded loops of the source (the do/while simplification search in
  `atlasc__make_mesh` and the while loop in `atlasc__fix_outline_pts`) are
  embedded with explicit fuel, returning `none` when the fuel runs out;
* external libraries that are not part of this repository's sources
  (sx, sproutline, stb_rect_pack, the Delaunay primitive, stb_image_write,
  sjson) appear either as fields of an `Externals` record or as small
  definitions modelled from the specification, each marked in its doc comment.

Definitions come first, then helper lemmas, then one theorem per claim.
-/

namespace Atlasc

/-- `s2o_point` (sproutline): an integer pixel coordinate pair. -/
structure S2OPoint where
  x : ℤ
  y : ℤ
deriving DecidableEq, Repr

instance : Inhabited S2OPoint := ⟨⟨0, 0⟩⟩

/-- `sx_irect` (sx/math.h): axis-aligned integer rectangle. -/
structure SxIRect where
  xmin : ℤ
  ymin : ℤ
  xmax : ℤ
  ymax : ℤ
deriving DecidableEq, Repr

/-- `sx_irecti`. -/
def sx_irecti (xmin ymin xmax ymax : ℤ) : SxIRect := ⟨xmin, ymin, xmax, ymax⟩

/-- `sx_irectwh(x, y, w, h)` = rectangle with min corner `(x,y)` and size `(w,h)`.
Modelled from the spec: sx helper, not in `src/`. -/
def sx_irectwh (x y w h : ℤ) : SxIRect := ⟨x, y, x + w, y + h⟩

/-- `sx_irect_add_point`: grow the rectangle to contain a point (componentwise
min of the min corner, max of the max corner).
Modelled from the spec: sx helper, not in `src/`; §4.6 derives `sprite_rect`
as the axis-aligned bounding rect of the outline points. -/
def sx_irect_add_point (r : SxIRect) (p : S2OPoint) : SxIRect :=
  ⟨min r.xmin p.x, min r.ymin p.y, max r.xmax p.x, max r.ymax p.y⟩

/-- `sx_irect_expand(rc, e)`: move the min corner by `-e` and the max corner by
`+e`.  Modelled from the spec: sx helper, not in `src/`; with `e = (-b,-b)` it
shrinks the rectangle by `b` on all sides, which is how `atlasc_make`
removes the border (line 473) and the compositor removes the padding
(line 524). -/
def sx_irect_expand (r : SxIRect) (ex ey : ℤ) : SxIRect :=
  ⟨r.xmin - ex, r.ymin - ey, r.xmax + ex, r.ymax + ey⟩

/-- `sx_clamp(v, lo, hi)`. Modelled from the spec: sx helper, not in `src/`. -/
def sx_clamp (v lo hi : ℤ) : ℤ := max lo (min v hi)

/-- `INT_MAX` of the 32-bit C `int`. -/
def intMax : ℤ := 2 ^ 31 - 1

/-- `INT_MIN` of the 32-bit C `int`. -/
def intMin : ℤ := -(2 ^ 31)

/-- The sentinel rectangle `sx_irecti(INT_MAX, INT_MAX, INT_MIN, INT_MIN)`
used by `atlasc_make` before adding any point (lines 425, 461). -/
def sentinelRect : SxIRect := sx_irecti intMax intMax intMin intMin

/-- Two's-complement wrap of an unbounded integer into the 32-bit `int` range.
The C source computes `final_rect.xmax - final_rect.xmin` with plain `int`
arithmetic (line 477); when the pack step failed, that subtraction is
`INT_MIN - INT_MAX`, which overflows.  The embedding makes the wraparound
explicit at this one place. -/
def wrap32 (z : ℤ) : ℤ := (z + 2 ^ 31) % 2 ^ 32 - 2 ^ 31

/-- Width of a rectangle (`xmax - xmin`). -/
def rectW (r : SxIRect) : ℤ := r.xmax - r.xmin

/-- Height of a rectangle (`ymax - ymin`). -/
def rectH (r : SxIRect) : ℤ := r.ymax - r.ymin

/-- A binary pixel mask: the single-channel buffers of the source
(`thresholded`, `dilate_thres`, `outlined`) viewed as a function from pixel
coordinates to "non-zero". -/
def MaskF : Type := ℤ → ℤ → Bool

/-! ### Bresenham line test (`atlasc__test_line`, lines 140-173)

The C loop terminates after at most `dx - dy` steps; the embedding runs the
loop on that much fuel, so it computes exactly the same answer. -/

/-- One-step state of the Bresenham walk in `atlasc__test_line`:
current point `(x0, y0)`, target `(x1, y1)`, accumulated error `err`,
constants `dx dy sx sy`. -/
def bresenhamHit (mask : MaskF) (w h : ℤ) (x1 y1 dx dy sx sy : ℤ) :
    ℕ → ℤ → ℤ → ℤ → Bool
  | 0, _, _, _ => false
  | fuel + 1, x0, y0, err =>
    if (-1 < x0 && -1 < y0 && x0 < w && y0 < h) && mask x0 y0 then
      true
    else if x0 = x1 && y0 = y1 then
      false
    else
      let e2 := 2 * err
      let err1 := if e2 ≥ dy then err + dy else err
      let x0' := if e2 ≥ dy then x0 + sx else x0
      let err2 := if e2 ≤ dx then err1 + dx else err1
      let y0' := if e2 ≤ dx then y0 + sy else y0
      bresenhamHit mask w h x1 y1 dx dy sx sy fuel x0' y0' err2

/-- `atlasc__test_line`: rasterise the segment `p0`-`p1` with Bresenham and
report whether any traversed in-bounds pixel of `mask` is set. -/
def atlasc__test_line (mask : MaskF) (w h : ℤ) (p0 p1 : S2OPoint) : Bool :=
  let dx := |p1.x - p0.x|
  let sx : ℤ := if p0.x < p1.x then 1 else -1
  let dy := -|p1.y - p0.y|
  let sy : ℤ := if p0.y < p1.y then 1 else -1
  bresenhamHit mask w h p1.x p1.y dx dy sx sy
    ((dx - dy).toNat + 1) p0.x p0.y (dx + dy)

/-! ### Canvas sizing (`atlasc_make` lines 477-486)

`sx_align_mask(v, 3)` is `(v + 3) & ~3`; for the non-negative values that reach
it this clears the two low bits of `v + 3`, i.e. rounds `v + 3` down to a
multiple of 4.  `sx_nearest_pow2` is the classical 32-bit bit-smear that rounds
up to a power of two (and maps 0 to 0 through two's-complement wraparound of
`n-1`). Both are sx helpers, not in `src/`; modelled from the spec (§4.8). -/

/-- `sx_align_mask(v, 3)` on the non-negative domain. -/
def sx_align_mask3 (v : ℕ) : ℕ := (v + 3) / 4 * 4

/-- The or-shift cascade inside `sx_nearest_pow2`:
`n |= n>>1; n |= n>>2; n |= n>>4; n |= n>>8; n |= n>>16`. -/
def smear32 (n : ℕ) : ℕ :=
  let n := n ||| n >>> 1
  let n := n ||| n >>> 2
  let n := n ||| n >>> 4
  let n := n ||| n >>> 8
  n ||| n >>> 16

/-- `sx_nearest_pow2(n)` for a non-negative 32-bit `int`: `n--`, smear, `n++`.
For `n = 0` the C decrement wraps to `-1` (all bits set) and the increment
wraps back to `0`; the embedding special-cases this. -/
def sx_nearest_pow2 (n : ℕ) : ℕ :=
  if n = 0 then 0 else smear32 (n - 1) + 1

/-- The canvas-sizing computation of `atlasc_make` lines 479-486: round both
extents up to multiples of 4, then, when `pot` is set, round each up to a
power of two. -/
def canvasSize (pot : Bool) (w h : ℕ) : ℕ × ℕ :=
  let w := sx_align_mask3 w
  let h := sx_align_mask3 h
  if pot then (sx_nearest_pow2 w, sx_nearest_pow2 h) else (w, h)

/-! ### The outward point offset (`atlasc__offset_pt`, lines 176-206)

The C function computes in 32-bit floats; the embedding idealises the float
arithmetic over `ℝ`.  The C cast `(int)` truncates toward zero. -/

/-- `sx_vec2_norm`: multiply by the reciprocal of the Euclidean length.
Modelled from the spec: sx helper, not in `src/` ("unit edge vectors", §4.4).
Over `ℝ`, division by a zero length yields the zero vector. -/
noncomputable def sx_vec2_norm (v : ℝ × ℝ) : ℝ × ℝ :=
  let invLen := 1 / Real.sqrt (v.1 * v.1 + v.2 * v.2)
  (v.1 * invLen, v.2 * invLen)

/-- `sx_equal(a, b, eps)`.  Modelled from the spec: sx helper, not in `src/`;
§4.4 reads `sx_equal(c.z, 0.0f, 0.00001f)` as the collinearity test
`|z| < 1e-5`. -/
def sx_equal (a b eps : ℝ) : Prop := |a - b| < eps

/-- The C cast `(int)` applied to a real value: truncation toward zero. -/
noncomputable def cIntOfReal (r : ℝ) : ℤ :=
  if 0 ≤ r then ⌊r⌋ else ⌈r⌉

open Classical in
/-- `atlasc__offset_pt` (lines 176-206): push `pts[pt_idx]` away from the
polygon by `amount`, truncate to integers, clamp to `[0,w] × [0,h]`, and
report whether the stored point actually changed. -/
noncomputable def atlasc__offset_pt (pts : List S2OPoint) (ptIdx : ℕ)
    (amount : ℝ) (w h : ℤ) : List S2OPoint × Bool :=
  let numPts := pts.length
  let ipt := pts.getD ptIdx default
  let pt : ℝ × ℝ := ((ipt.x : ℝ), (ipt.y : ℝ))
  let prevI := if 0 < ptIdx then pts.getD (ptIdx - 1) default
               else pts.getD (numPts - 1) default
  let nextI := if ptIdx + 1 < numPts then pts.getD (ptIdx + 1) default
               else pts.getD 0 default
  let edge1 := sx_vec2_norm ((prevI.x : ℝ) - pt.1, (prevI.y : ℝ) - pt.2)
  let edge2 := sx_vec2_norm ((nextI.x : ℝ) - pt.1, (nextI.y : ℝ) - pt.2)
  let cz := edge1.1 * edge2.2 - edge1.2 * edge2.1
  let n : ℝ × ℝ :=
    if sx_equal cz 0 (1 / 100000) then
      (-edge1.2 * amount, edge1.1 * amount)
    else
      let k : ℝ := if cz < 0 then -1 else 1
      let s := sx_vec2_norm (edge1.1 + edge2.1, edge1.2 + edge2.2)
      (s.1 * (k * amount), s.2 * (k * amount))
  let ix := sx_clamp (cIntOfReal (pt.1 + n.1)) 0 w
  let iy := sx_clamp (cIntOfReal (pt.2 + n.2)) 0 h
  (pts.set ptIdx ⟨ix, iy⟩, !(ipt.x == ix && ipt.y == iy))

/-! ### Outline correction (`atlasc__fix_outline_pts`, lines 208-229)

The inner `while` loop of the source has no intrinsic bound; the embedding
gives it explicit fuel and returns `none` when the fuel runs out. -/

/-- The inner `while (atlasc__test_line(...))` loop for one edge `(i, nextI)`:
offset `pts[i]`; stop if it did not move; otherwise offset `pts[nextI]`,
refresh, and re-test. -/
noncomputable def fixEdgeLoop (mask : MaskF) (w h : ℤ) (i nextI : ℕ) :
    ℕ → List S2OPoint → Option (List S2OPoint)
  | 0, _ => none
  | fuel + 1, pts =>
    if atlasc__test_line mask w h (pts.getD i default) (pts.getD nextI default) then
      let r1 := atlasc__offset_pt pts i 2 w h
      if r1.2 then
        let r2 := atlasc__offset_pt r1.1 nextI 2 w h
        fixEdgeLoop mask w h i nextI fuel r2.1
      else some r1.1
    else some pts

/-- The outer `for` loop of `atlasc__fix_outline_pts` over the edge start
indices.  (The source's debug-only `sx_assert` that `pts[i]` is not on the
thresholded mask compiles to nothing in release builds and is not part of the
behaviour.) -/
noncomputable def fixEdgesFrom (mask : MaskF) (w h : ℤ) (fuel : ℕ) :
    List ℕ → List S2OPoint → Option (List S2OPoint)
  | [], pts => some pts
  | i :: rest, pts =>
    let nextI := if i + 1 < pts.length then i + 1 else 0
    match fixEdgeLoop mask w h i nextI fuel pts with
    | none => none
    | some pts' => fixEdgesFrom mask w h fuel rest pts'

/-- `atlasc__fix_outline_pts` (lines 208-229). -/
noncomputable def atlasc__fix_outline_pts (mask : MaskF) (w h : ℤ)
    (pts : List S2OPoint) (fuel : ℕ) : Option (List S2OPoint) :=
  fixEdgesFrom mask w h fuel (List.range pts.length) pts

/-! ### Adaptive simplification loop (`atlasc__make_mesh`, lines 244-249)

`s2o_distance_based_path_simplification` is a sproutline primitive, not in
`src/`; it enters the embedding as a function parameter.  The float threshold
takes only values `0.5 + k·0.5`, represented exactly in `ℚ`. -/

/-- The `do { copy; simplify; threshold += delta } while (num_verts > max_verts)`
loop: every pass re-simplifies the original `pts`. -/
def simplifyLoopFuel (simplify : List S2OPoint → ℚ → List S2OPoint)
    (pts : List S2OPoint) (maxVerts : ℕ) :
    ℕ → ℚ → Option (List S2OPoint × ℚ)
  | 0, _ => none
  | fuel + 1, threshold =>
    let res := simplify pts threshold
    if maxVerts < res.length then
      simplifyLoopFuel simplify pts maxVerts fuel (threshold + 1 / 2)
    else
      some (res, threshold)

/-! ### External primitives and the orchestrator -/

/-- An input image as the decoder delivers it: dimensions plus an RGBA8
pixel function. -/
structure Image where
  w : ℤ
  h : ℤ
  rgba : ℤ → ℤ → ℕ × ℕ × ℕ × ℕ

/-- An alpha-channel buffer. -/
def AlphaF : Type := ℤ → ℤ → ℕ

/-- The external primitives `atlasc.c` links against but whose code is not in
`src/`: the sproutline mask/outline/simplification helpers, the Delaunay
triangulator, `stbrp_pack_rects`, and the success/failure of the file-writing
calls in `atlasc__save` (stb_image_write, sjson, sx file IO). -/
structure Externals where
  rgba_to_alpha : Image → AlphaF
  alpha_to_thresholded : AlphaF → ℤ → ℤ → ℤ → MaskF
  dilate_thresholded : MaskF → ℤ → ℤ → MaskF
  thresholded_to_outlined : MaskF → ℤ → ℤ → MaskF
  extract_outline_path : MaskF → ℤ → ℤ → List S2OPoint
  s2o_simplify : List S2OPoint → ℚ → List S2OPoint
  delaunay : List S2OPoint → List S2OPoint × List (ℕ × ℕ × ℕ)
  pack : ℤ → ℤ → List (ℤ × ℤ) → Option (List (ℤ × ℤ))
  png_write_ok : Bool
  json_ctx_ok : Bool
  json_encode_ok : Bool
  file_open_ok : Bool

/-- The command-line arguments consumed by `atlasc_make`. -/
structure AtlascArgs where
  alpha_threshold : ℤ
  max_width : ℤ
  max_height : ℤ
  border : ℤ
  padding : ℤ
  pot : Bool
  mesh : Bool
  max_verts_per_mesh : ℕ

/-- The mesh data `atlasc__make_mesh` stores into a sprite: the triangulated
point set and the triangle index triples (`spr->pts`, `spr->tris`). -/
structure MeshData where
  pts : List S2OPoint
  tris : List (ℕ × ℕ × ℕ)
deriving DecidableEq

/-- One sprite record (`atlasc__sprite`). -/
structure SpriteRec where
  src_size : ℤ × ℤ
  sprite_rect : SxIRect
  sheet_rect : SxIRect
  pts : List S2OPoint
  uvs : List S2OPoint
  tris : List (ℕ × ℕ × ℕ)
deriving DecidableEq

/-- `spr->num_tris`. -/
def SpriteRec.numTris (s : SpriteRec) : ℕ := s.tris.length

/-- The thresholded (pre-dilation) mask of one sprite: lines 407-410. -/
def spriteThresholded (ext : Externals) (args : AtlascArgs) (img : Image) : MaskF :=
  ext.alpha_to_thresholded (ext.rgba_to_alpha img) img.w img.h args.alpha_threshold

/-- The extracted outline points of one sprite: lines 412-421 (dilate the
thresholded mask, outline it, extract the path). -/
def spriteOutlinePts (ext : Externals) (args : AtlascArgs) (img : Image) :
    List S2OPoint :=
  ext.extract_outline_path
    (ext.thresholded_to_outlined
      (ext.dilate_thresholded (spriteThresholded ext args img) img.w img.h)
      img.w img.h)
    img.w img.h

/-- The cropped rectangle of lines 424-428: fold `sx_irect_add_point` over the
outline points starting from the `INT_MAX/INT_MIN` sentinel. -/
def spriteRectOf (pts : List S2OPoint) : SxIRect :=
  pts.foldl sx_irect_add_point sentinelRect

/-- `atlasc__make_mesh` (lines 231-293): adaptive simplification, outline
correction against the thresholded mask, Delaunay triangulation.  The two
fuels bound the two source loops; `none` means the fuel ran out. -/
noncomputable def atlasc__make_mesh (ext : Externals) (pts : List S2OPoint)
    (maxVerts : ℕ) (thresholded : MaskF) (width height : ℤ)
    (fuelS fuelF : ℕ) : Option MeshData :=
  (simplifyLoopFuel ext.s2o_simplify pts maxVerts fuelS (1 / 2)).bind fun st =>
    (atlasc__fix_outline_pts thresholded width height st.1 fuelF).map
      fun fixedPts =>
        ⟨(ext.delaunay fixedPts).1, (ext.delaunay fixedPts).2⟩

/-- The per-sprite half of `atlasc_make`'s first loop (lines 387-439), after
decoding: build masks, extract the outline, compute `sprite_rect`, and make
the mesh when `--mesh` is set.  `sheet_rect` starts as the zeroed rectangle
(the sprite array is `memset` to 0 at line 385). -/
noncomputable def processSprite (ext : Externals) (args : AtlascArgs)
    (img : Image) (fuelS fuelF : ℕ) : Option SpriteRec :=
  let pts := spriteOutlinePts ext args img
  let srect := spriteRectOf pts
  if args.mesh then
    (atlasc__make_mesh ext pts args.max_verts_per_mesh
        (spriteThresholded ext args img) img.w img.h fuelS fuelF).map
      fun m => ⟨(img.w, img.h), srect, ⟨0, 0, 0, 0⟩, m.pts, [], m.tris⟩
  else
    some ⟨(img.w, img.h), srect, ⟨0, 0, 0, 0⟩, [], [], []⟩

/-- The UV computation of lines 507-510: `uv = (p - sprite_rect.vmin) +
(sheet_rect.vmin + (padding, padding))` for each mesh point. -/
def atlasc__calc_uvs (padding : ℤ) (spriteRect sheetRect : SxIRect)
    (pts : List S2OPoint) : List S2OPoint :=
  pts.map fun p =>
    ⟨p.x - spriteRect.xmin + (sheetRect.xmin + padding),
     p.y - spriteRect.ymin + (sheetRect.ymin + padding)⟩

/-- `atlasc__save` (lines 295-374), reduced to its control flow: the PNG write
is attempted first and its failure only logged (lines 306-308); the function
fails only when the sjson context cannot be created, the JSON encoding
returns null, or the output file cannot be opened.  Returns
`(success, png file written, manifest file written)`. -/
def atlasc__save (ext : Externals) : Bool × Bool × Bool :=
  let pngWritten := ext.png_write_ok
  if !ext.json_ctx_ok then (false, pngWritten, false)
  else if !ext.json_encode_ok then (false, pngWritten, false)
  else if !ext.file_open_ok then (false, pngWritten, false)
  else (true, pngWritten, true)

/-- The observable outcome of one `atlasc_make` call. -/
structure MakeResult where
  sprites : List SpriteRec
  packed : Bool
  width : ℕ
  height : ℕ
  success : Bool
  pngWritten : Bool
  manifestWritten : Bool
deriving DecidableEq

/-- The padded rectangle sizes handed to the packer (lines 454-459): each
sprite rectangle inflated by `2 * (border + padding)`. -/
def rpDimsOf (args : AtlascArgs) (sprites : List SpriteRec) : List (ℤ × ℤ) :=
  sprites.map fun (s : SpriteRec) =>
    (rectW s.sprite_rect + (args.border + args.padding) * 2,
     rectH s.sprite_rect + (args.border + args.padding) * 2)

/-- The packing block of `atlasc_make` (lines 460-475): when
`stbrp_pack_rects` succeeds, each sprite's `sheet_rect` becomes its placed
rectangle shrunk by the border, and `final_rect` accumulates the placed
min/max corners; when it fails, nothing is assigned and `final_rect` stays
the sentinel.  Returns (sprites, final_rect, packer succeeded). -/
def packStage (ext : Externals) (args : AtlascArgs)
    (sprites : List SpriteRec) : List SpriteRec × SxIRect × Bool :=
  match ext.pack args.max_width args.max_height (rpDimsOf args sprites) with
  | some poss =>
    let sheetRects := List.zipWith
      (fun (d : ℤ × ℤ) (p : ℤ × ℤ) => sx_irectwh p.1 p.2 d.1 d.2)
      (rpDimsOf args sprites) poss
    let fr := sheetRects.foldl
      (fun r (sr : SxIRect) =>
        sx_irect_add_point (sx_irect_add_point r ⟨sr.xmin, sr.ymin⟩)
          ⟨sr.xmax, sr.ymax⟩)
      sentinelRect
    (List.zipWith
      (fun (s : SpriteRec) (sr : SxIRect) =>
        { s with sheet_rect := sx_irect_expand sr (-args.border) (-args.border) })
      sprites sheetRects, fr, true)
  | none => (sprites, sentinelRect, false)

/-- The UV block of `atlasc_make` (lines 496-515): when `--mesh` is set, every
sprite with points gets `uvs` from `atlasc__calc_uvs`. -/
def uvStage (args : AtlascArgs) (sprites : List SpriteRec) : List SpriteRec :=
  if args.mesh then
    sprites.map fun (s : SpriteRec) =>
      if s.pts.isEmpty then s
      else { s with
        uvs := atlasc__calc_uvs args.padding s.sprite_rect s.sheet_rect s.pts }
  else sprites

/-- `atlasc_make` (lines 376-538): process each sprite, pack the padded
rectangles, assign `sheet_rect`s and accumulate `final_rect` only when
`stbrp_pack_rects` succeeded (lines 462-475), size the canvas (477-486),
compute mesh UVs (496-515), and save (530).  The pixel blitting (517-528)
produces no data the claims mention and is omitted.  `none` only signals
that the embedding's loop fuel ran out. -/
noncomputable def atlasc_make (ext : Externals) (args : AtlascArgs)
    (imgs : List Image) (fuelS fuelF : ℕ) : Option MakeResult :=
  match imgs.mapM (fun img => processSprite ext args img fuelS fuelF) with
  | none => none
  | some sprites =>
    let packState := packStage ext args sprites
    let dims := canvasSize args.pot
      (wrap32 (rectW packState.2.1)).toNat (wrap32 (rectH packState.2.1)).toNat
    let sprites3 := uvStage args packState.1
    let sv := atlasc__save ext
    some ⟨sprites3, packState.2.2, dims.1, dims.2, sv.1, sv.2.1, sv.2.2⟩

/-- `main`'s translation of the `atlasc_make` result into an exit code
(line 640: `return r ? 0 : -1`); a `-1` return from `main` is observed as
process exit status 255. -/
def atlascExitCode (r : Bool) : ℤ := if r then 0 else -1

/-! ### Lemmas about the bit smear in `sx_nearest_pow2` -/

/-- One or-shift step widens the window of source bits feeding each output
bit: if bit `i` of `n` collects bits `i..i+W-1` of `m`, then bit `i` of
`n ||| n >>> W` collects bits `i..i+2W-1` of `m`. -/
theorem orShift_window {m n : ℕ} (W : ℕ)
    (hn : ∀ i, n.testBit i = true ↔ ∃ d, d < W ∧ m.testBit (i + d) = true) :
    ∀ i, (n ||| n >>> W).testBit i = true ↔
      ∃ d, d < 2 * W ∧ m.testBit (i + d) = true := by
  intro i
  simp only [Nat.testBit_or, Nat.testBit_shiftRight, Bool.or_eq_true, hn]
  constructor
  · rintro (⟨d, hd, hbit⟩ | ⟨d, hd, hbit⟩)
    · exact ⟨d, by omega, hbit⟩
    · refine ⟨W + d, by omega, ?_⟩
      have : i + (W + d) = W + i + d := by omega
      rw [this]; exact hbit
  · rintro ⟨d, hd, hbit⟩
    by_cases hdW : d < W
    · exact Or.inl ⟨d, hdW, hbit⟩
    · refine Or.inr ⟨d - W, by omega, ?_⟩
      have : W + i + (d - W) = i + d := by omega
      rw [this]; exact hbit

/-- Each output bit of `smear32` is the OR of the 32 source bits at and above
it. -/
theorem smear32_window (m : ℕ) :
    ∀ i, (smear32 m).testBit i = true ↔
      ∃ d, d < 32 ∧ m.testBit (i + d) = true := by
  have h1 : ∀ i, m.testBit i = true ↔ ∃ d, d < 1 ∧ m.testBit (i + d) = true := by
    intro i
    constructor
    · intro h; exact ⟨0, by omega, by simpa using h⟩
    · rintro ⟨d, hd, h⟩
      have : d = 0 := by omega
      simpa [this] using h
  have h2 := orShift_window 1 h1
  have h4 := orShift_window 2 h2
  have h8 := orShift_window 4 h4
  have h16 := orShift_window 8 h8
  have h32 := orShift_window 16 h16
  simpa [smear32] using h32

/-- The top bit of a positive number is set. -/
theorem testBit_size_sub_one {m : ℕ} (hm : 0 < m) :
    m.testBit (Nat.size m - 1) = true := by
  have hsz : 0 < Nat.size m := Nat.size_pos.mpr hm
  have hlo : 2 ^ (Nat.size m - 1) ≤ m := Nat.lt_size.mp (by omega)
  have hhi : m < 2 ^ Nat.size m := Nat.lt_size_self m
  rw [Nat.testBit_to_div_mod]
  have hq : m / 2 ^ (Nat.size m - 1) = 1 := by
    have h2 : m < 2 ^ (Nat.size m - 1) * 2 := by
      have : 2 ^ (Nat.size m - 1) * 2 = 2 ^ (Nat.size m - 1 + 1) := by
        rw [pow_succ]
      rw [this]
      have : Nat.size m - 1 + 1 = Nat.size m := by omega
      rw [this]; exact hhi
    have hpos : 0 < 2 ^ (Nat.size m - 1) := Nat.pos_pow_of_pos _ (by omega)
    have hge : 1 ≤ m / 2 ^ (Nat.size m - 1) := (Nat.le_div_iff_mul_le hpos).mpr (by omega)
    have hlt : m / 2 ^ (Nat.size m - 1) < 2 := Nat.div_lt_of_lt_mul (by omega)
    omega
  simp [hq]

/-- On the 32-bit domain, `smear32` fills every bit below the top bit:
the result is `2 ^ size m - 1`. -/
theorem smear32_eq (m : ℕ) (hb : m < 2 ^ 32) :
    smear32 m = 2 ^ Nat.size m - 1 := by
  rcases Nat.eq_zero_or_pos m with hm | hm
  · subst hm; simp [smear32, Nat.size_zero]
  apply Nat.eq_of_testBit_eq
  intro i
  rw [Nat.testBit_two_pow_sub_one]
  by_cases hi : i < Nat.size m
  · have : (smear32 m).testBit i = true := by
      rw [smear32_window]
      refine ⟨Nat.size m - 1 - i, ?_, ?_⟩
      · have : Nat.size m ≤ 32 := Nat.size_le.mpr hb
        omega
      · have : i + (Nat.size m - 1 - i) = Nat.size m - 1 := by omega
        rw [this]; exact testBit_size_sub_one hm
    simp [this, hi]
  · have : ¬ (smear32 m).testBit i = true := by
      rw [smear32_window]
      rintro ⟨d, -, hbit⟩
      have hlt : m < 2 ^ (i + d) := by
        have h1 : m < 2 ^ Nat.size m := Nat.lt_size_self m
        have h2 : Nat.size m ≤ i + d := by omega
        exact lt_of_lt_of_le h1 (Nat.pow_le_pow_right (by omega) h2)
      rw [Nat.testBit_lt_two_pow hlt] at hbit
      exact absurd hbit (by simp)
    simp only [Bool.not_eq_true] at this
    simp [this, hi]

/-- `sx_nearest_pow2` on `1 ≤ n ≤ 2^31` is `2 ^ size (n-1)`. -/
theorem sx_nearest_pow2_eq {n : ℕ} (h1 : 1 ≤ n) (h2 : n ≤ 2 ^ 31) :
    sx_nearest_pow2 n = 2 ^ Nat.size (n - 1) := by
  have hb : n - 1 < 2 ^ 32 := by
    have : (2 : ℕ) ^ 31 < 2 ^ 32 := by norm_num
    omega
  have hpos : 0 < 2 ^ Nat.size (n - 1) := Nat.pos_pow_of_pos _ (by omega)
  rw [sx_nearest_pow2, if_neg (by omega), smear32_eq _ hb]
  omega

/-- `sx_nearest_pow2` never shrinks its argument (on the 32-bit domain). -/
theorem le_sx_nearest_pow2 {n : ℕ} (h1 : 1 ≤ n) (h2 : n ≤ 2 ^ 31) :
    n ≤ sx_nearest_pow2 n := by
  rw [sx_nearest_pow2_eq h1 h2]
  have := Nat.lt_size_self (n - 1)
  omega

/-- `sx_nearest_pow2` fixes powers of two up to `2^31`. -/
theorem sx_nearest_pow2_pow {k : ℕ} (hk : k ≤ 31) :
    sx_nearest_pow2 (2 ^ k) = 2 ^ k := by
  have h1 : 1 ≤ 2 ^ k := Nat.pos_pow_of_pos _ (by omega)
  have h2 : (2 : ℕ) ^ k ≤ 2 ^ 31 := Nat.pow_le_pow_right (by omega) hk
  rw [sx_nearest_pow2_eq h1 h2]
  congr 1
  have hle : Nat.size (2 ^ k - 1) ≤ k := Nat.size_le.mpr (by omega)
  rcases Nat.eq_zero_or_pos k with h0 | hkpos
  · subst h0; simp only [pow_zero] at hle ⊢; omega
  · have hge : k ≤ Nat.size (2 ^ k - 1) := by
      have : k - 1 < Nat.size (2 ^ k - 1) := Nat.lt_size.mpr (by
        have h2k : 2 ^ (k - 1) * 2 = 2 ^ k := by
          rw [← pow_succ]
          congr 1
          omega
        have := Nat.pos_pow_of_pos (k - 1) (show 0 < 2 by omega)
        omega)
      omega
    omega

/-- `sx_align_mask3` is idempotent and produces multiples of 4. -/
theorem sx_align_mask3_idem (v : ℕ) :
    sx_align_mask3 (sx_align_mask3 v) = sx_align_mask3 v := by
  simp only [sx_align_mask3]
  omega

/-- `sx_align_mask3` fixes multiples of 4. -/
theorem sx_align_mask3_of_dvd {v : ℕ} (h : 4 ∣ v) :
    sx_align_mask3 v = v := by
  obtain ⟨t, rfl⟩ := h
  simp only [sx_align_mask3]
  omega

/-- After aligning and rounding to a power of two, both operations fix the
result. -/
theorem np2_align_fixed {x : ℕ} (hx : x ≤ 2 ^ 30) :
    sx_align_mask3 (sx_nearest_pow2 (sx_align_mask3 x)) =
        sx_nearest_pow2 (sx_align_mask3 x) ∧
      sx_nearest_pow2 (sx_nearest_pow2 (sx_align_mask3 x)) =
        sx_nearest_pow2 (sx_align_mask3 x) := by
  have h4 : 4 ∣ sx_align_mask3 x := ⟨(x + 3) / 4, by simp [sx_align_mask3, Nat.mul_comm]⟩
  have hle : sx_align_mask3 x ≤ 2 ^ 30 := by
    simp only [sx_align_mask3]
    omega
  rcases Nat.eq_zero_or_pos (sx_align_mask3 x) with h0 | hpos
  · rw [h0]
    constructor
    · simp [sx_nearest_pow2, sx_align_mask3]
    · simp [sx_nearest_pow2]
  · have h1 : 1 ≤ sx_align_mask3 x := hpos
    have h2 : sx_align_mask3 x ≤ 2 ^ 31 := le_trans hle (by norm_num)
    have hpow := sx_nearest_pow2_eq h1 h2
    have hk31 : Nat.size (sx_align_mask3 x - 1) ≤ 31 := by
      have : sx_align_mask3 x - 1 < 2 ^ 31 := by
        have : (2 : ℕ) ^ 30 < 2 ^ 31 := by norm_num
        omega
      exact Nat.size_le.mpr this
    have hge4 : 4 ≤ sx_align_mask3 x := by omega
    have hnp_ge : sx_align_mask3 x ≤ sx_nearest_pow2 (sx_align_mask3 x) :=
      le_sx_nearest_pow2 h1 h2
    have hk2 : 2 ≤ Nat.size (sx_align_mask3 x - 1) := by
      by_contra hcon
      have hsz : Nat.size (sx_align_mask3 x - 1) ≤ 1 := by omega
      have : sx_align_mask3 x ≤ 2 ^ 1 := by
        rw [hpow] at hnp_ge
        calc sx_align_mask3 x ≤ 2 ^ Nat.size (sx_align_mask3 x - 1) := hnp_ge
          _ ≤ 2 ^ 1 := Nat.pow_le_pow_right (by omega) hsz
      omega
    have hdvd : 4 ∣ sx_nearest_pow2 (sx_align_mask3 x) := by
      rw [hpow]
      have : (4 : ℕ) = 2 ^ 2 := by norm_num
      rw [this]
      exact pow_dvd_pow 2 hk2
    refine ⟨sx_align_mask3_of_dvd hdvd, ?_⟩
    rw [hpow]
    exact sx_nearest_pow2_pow hk31

/-- C8: canvas sizing is idempotent: for every non-negative extent pair (within
the range representable without 32-bit overflow), applying the sizing
computation of `atlasc_make` lines 477-486 (round width and height up with
`x ← (x+3) & ~3`, then, when the `pot` flag is set, round each up to a power
of two) twice yields the same `(W, H)` as applying it once. -/
theorem canvasSize_idempotent (pot : Bool) (w h : ℕ)
    (hw : w ≤ 2 ^ 30) (hh : h ≤ 2 ^ 30) :
    canvasSize pot (canvasSize pot w h).1 (canvasSize pot w h).2 =
      canvasSize pot w h := by
  cases pot with
  | false =>
    simp only [canvasSize, if_neg, Bool.false_eq_true, ite_false]
    rw [sx_align_mask3_idem, sx_align_mask3_idem]
  | true =>
    simp only [canvasSize, ite_true]
    rw [(np2_align_fixed hw).1, (np2_align_fixed hh).1,
      (np2_align_fixed hw).2, (np2_align_fixed hh).2]

/-- Witness for C8 at `pot = true`, `w = 5`, `h = 10`. -/
theorem canvasSize_idempotent_witness :
    5 ≤ 2 ^ 30 ∧ 10 ≤ 2 ^ 30 ∧
      canvasSize true (canvasSize true 5 10).1 (canvasSize true 5 10).2 =
        canvasSize true 5 10 :=
  ⟨by norm_num, by norm_num,
    canvasSize_idempotent true 5 10 (by norm_num) (by norm_num)⟩

/-! ### Provenance lemmas for the sprite list inside `atlasc_make` -/

/-- Every element of a `zipWith` comes from corresponding elements of the two
input lists. -/
theorem mem_zipWith_exists {α β γ : Type} {f : α → β → γ} :
    ∀ {l₁ : List α} {l₂ : List β} {c : γ},
      c ∈ List.zipWith f l₁ l₂ → ∃ a, a ∈ l₁ ∧ ∃ b, b ∈ l₂ ∧ c = f a b
  | [], _, _, h => by simp at h
  | _ :: _, [], _, h => by simp at h
  | a :: l₁, b :: l₂, c, h => by
    rcases List.mem_cons.mp h with h | h
    · exact ⟨a, List.mem_cons_self _ _, b, List.mem_cons_self _ _, h⟩
    · obtain ⟨a', ha, b', hb, rfl⟩ := mem_zipWith_exists h
      exact ⟨a', List.mem_cons_of_mem _ ha, b', List.mem_cons_of_mem _ hb, rfl⟩

/-- `processSprite` always stores empty `uvs` (the UV array is only filled
later, in `atlasc_make` lines 496-515). -/
theorem processSprite_uvs {ext : Externals} {args : AtlascArgs} {img : Image}
    {fS fF : ℕ} {s : SpriteRec}
    (h : processSprite ext args img fS fF = some s) : s.uvs = [] := by
  unfold processSprite at h
  by_cases hm : args.mesh
  · rw [if_pos hm] at h
    rcases hmesh : atlasc__make_mesh ext (spriteOutlinePts ext args img)
        args.max_verts_per_mesh (spriteThresholded ext args img) img.w img.h fS fF with
      _ | m
    · rw [hmesh] at h; exact absurd h (by simp)
    · rw [hmesh] at h
      simp only [Option.map_some', Option.some.injEq] at h
      rw [← h]
  · rw [if_neg hm] at h
    simp only [Option.some.injEq] at h
    rw [← h]

/-- Every sprite delivered by the per-sprite loop has empty `uvs`. -/
theorem mapM_processSprite_uvs {ext : Externals} {args : AtlascArgs}
    {fS fF : ℕ} :
    ∀ {imgs : List Image} {sprites : List SpriteRec},
      imgs.mapM (fun img => processSprite ext args img fS fF) = some sprites →
      ∀ s ∈ sprites, s.uvs = []
  | [], sprites, h => by
    simp only [List.mapM_nil, pure, Option.some.injEq] at h
    subst h; intro s hs; simp at hs
  | img :: imgs, sprites, h => by
    simp only [List.mapM_cons] at h
    rcases hp : processSprite ext args img fS fF with _ | s₀
    · rw [hp] at h; exact absurd h (by simp)
    · rw [hp] at h
      rcases hrest : imgs.mapM (fun img => processSprite ext args img fS fF) with _ | rest
      · rw [hrest] at h; exact absurd h (by simp)
      · rw [hrest] at h
        simp only [Option.bind_some, Option.bind_eq_bind, Option.some_bind,
          pure, Option.some.injEq] at h
        subst h
        intro s hs
        rcases List.mem_cons.mp hs with rfl | hs
        · exact processSprite_uvs hp
        · exact mapM_processSprite_uvs hrest s hs

/-- C9: for every sprite of a completed `atlasc_make` run, when the sprite has
a mesh, each recorded uv equals
`(p - sprite_rect.min) + (sheet_rect.min + (padding, padding))` for its
corresponding position `p` (so positions and uvs have equal length), and when
`positions` is empty, `uvs` is empty. -/
theorem atlasc_make_uv_resolver (ext : Externals) (args : AtlascArgs)
    (imgs : List Image) (fS fF : ℕ) (r : MakeResult)
    (hmk : atlasc_make ext args imgs fS fF = some r) :
    ∀ s ∈ r.sprites,
      (s.pts ≠ [] → args.mesh = true →
        s.uvs = s.pts.map (fun p =>
          (⟨p.x - s.sprite_rect.xmin + (s.sheet_rect.xmin + args.padding),
            p.y - s.sprite_rect.ymin + (s.sheet_rect.ymin + args.padding)⟩ :
            S2OPoint)) ∧
        s.uvs.length = s.pts.length) ∧
      (s.pts = [] → s.uvs = []) := by
  unfold atlasc_make at hmk
  rcases hms : imgs.mapM (fun img => processSprite ext args img fS fF) with _ | sprites
  · rw [hms] at hmk; exact absurd hmk (by simp)
  rw [hms] at hmk
  have huv : ∀ s ∈ sprites, s.uvs = [] := mapM_processSprite_uvs hms
  simp only [Option.some.injEq] at hmk
  subst hmk
  -- the packed sprite list still has empty uvs
  have hpacked : ∀ s ∈ (packStage ext args sprites).1, s.uvs = [] := by
    unfold packStage
    rcases ext.pack args.max_width args.max_height (rpDimsOf args sprites) with _ | poss
    · exact huv
    · intro s hs
      obtain ⟨a, ha, b, hb, rfl⟩ := mem_zipWith_exists hs
      exact huv a ha
  intro s hs
  simp only [uvStage] at hs
  by_cases hm : args.mesh
  · rw [if_pos hm] at hs
    obtain ⟨t, ht, rfl⟩ := List.mem_map.mp hs
    by_cases hte : t.pts.isEmpty
    · rw [if_pos hte]
      have hte' : t.pts = [] := List.isEmpty_iff.mp hte
      exact ⟨fun hne _ => absurd hte' hne, fun _ => hpacked t ht⟩
    · rw [if_neg hte]
      have hte' : t.pts ≠ [] := fun h => hte (List.isEmpty_iff.mpr h)
      refine ⟨fun _ _ => ⟨rfl, by simp [atlasc__calc_uvs]⟩, fun h => absurd h hte'⟩
  · rw [if_neg hm] at hs
    exact ⟨fun _ hmt => absurd hmt (by simpa using hm),
      fun _ => hpacked s hs⟩

/-! ### Concrete external instances used in evaluations -/

/-- Modelled from the spec: `s2o_alpha_to_thresholded` (sproutline, not in
`src/`): pixel set iff `alpha(x,y) ≥ alpha_threshold` (§4.1). -/
def s2o_alpha_to_thresholded_spec (a : AlphaF) (_w _h thr : ℤ) : MaskF :=
  fun x y => decide (thr ≤ (a x y : ℤ))

/-- Modelled from the spec: `s2o_dilate_thresholded` (sproutline, not in
`src/`): one round of 3×3 dilation; pixel set iff it or any 8-neighbour is
set (§4.1). -/
def s2o_dilate_spec (m : MaskF) (_w _h : ℤ) : MaskF := fun x y =>
  m x y || m (x - 1) y || m (x + 1) y || m x (y - 1) || m x (y + 1) ||
    m (x - 1) (y - 1) || m (x + 1) (y - 1) || m (x - 1) (y + 1) ||
    m (x + 1) (y + 1)

/-- The alpha channel of an RGBA pixel function (`s2o_rgba_to_alpha`). -/
def rgbaAlpha (img : Image) : AlphaF := fun x y => (img.rgba x y).2.2.2

/-- A concrete externals record whose file-writing flags report a failed PNG
write while the JSON path is healthy. -/
def extSavePngFail : Externals where
  rgba_to_alpha := rgbaAlpha
  alpha_to_thresholded := s2o_alpha_to_thresholded_spec
  dilate_thresholded := s2o_dilate_spec
  thresholded_to_outlined := fun m _ _ => m
  extract_outline_path := fun _ _ _ => []
  s2o_simplify := fun pts _ => pts
  delaunay := fun pts => (pts, [])
  pack := fun _ _ rects => some (rects.map fun _ => (0, 0))
  png_write_ok := false
  json_ctx_ok := true
  json_encode_ok := true
  file_open_ok := true

/-- C4 counterexample: when `stbi_write_png` fails but the JSON manifest path
is healthy, `atlasc__save` merely logs the failure (lines 306-308) and still
returns success, the manifest is written, and the process exits 0 — so the
claim that a PNG write failure is fatal is false on the code. -/
theorem save_png_failure_counterexample :
    atlasc__save extSavePngFail = (true, false, true) ∧
      atlascExitCode (atlasc__save extSavePngFail).1 = 0 :=
  ⟨rfl, rfl⟩

/-- C4 (amended): `atlasc__save` succeeds iff the sjson context is created,
the JSON encodes, and the output file opens; the PNG write outcome does not
enter the result.  A failed save exits `-1` (observed as process status 255),
a successful one exits 0. -/
theorem save_failure_semantics (ext : Externals) :
    (atlasc__save ext).1 =
        (ext.json_ctx_ok && (ext.json_encode_ok && ext.file_open_ok)) ∧
      atlascExitCode (atlasc__save ext).1 =
        (if ext.json_ctx_ok && (ext.json_encode_ok && ext.file_open_ok) then 0
         else -1) := by
  rcases ext with ⟨f₁, f₂, f₃, f₄, f₅, f₆, f₇, f₈, png, ctx, enc, fo⟩
  cases ctx <;> cases enc <;> cases fo <;>
    simp [atlasc__save, atlascExitCode]

/-- C5: for every outline and every `max_verts ≥ 3`, provided the simplifier
eventually collapses the outline to at most 3 points for large thresholds
(as the spec argues), the adaptive loop of `atlasc__make_mesh` lines 244-249
(threshold starting at 0.5, incremented by 0.5 after each pass, each pass
re-simplifying the original outline) terminates with some fuel, its result is
the output of an actual simplification pass at some threshold `≥ 0.5` (so at
least one pass is applied even when the outline already fits), and the final
vertex count is at most `max_verts`. -/
theorem simplifyLoop_adaptive_search
    (simplify : List S2OPoint → ℚ → List S2OPoint) (pts : List S2OPoint)
    (maxVerts : ℕ) (hne : pts ≠ []) (hmv : 3 ≤ maxVerts)
    (hcollapse : ∃ ε0 : ℚ, ∀ ε : ℚ, ε0 ≤ ε → (simplify pts ε).length ≤ 3) :
    ∃ (fuel : ℕ) (res : List S2OPoint) (thr : ℚ),
      simplifyLoopFuel simplify pts maxVerts fuel (1 / 2) = some (res, thr) ∧
        res.length ≤ maxVerts ∧ res = simplify pts thr ∧ 1 / 2 ≤ thr := by
  obtain ⟨ε0, hε⟩ := hcollapse
  have key : ∀ n : ℕ, ∀ thr : ℚ, ε0 ≤ thr + (n : ℚ) / 2 →
      ∃ res thr',
        simplifyLoopFuel simplify pts maxVerts (n + 1) thr = some (res, thr') ∧
          res.length ≤ maxVerts ∧ res = simplify pts thr' ∧ thr ≤ thr' := by
    intro n
    induction n with
    | zero =>
      intro thr h0
      have hlen : (simplify pts thr).length ≤ 3 := hε thr (by
        simpa using h0)
      refine ⟨simplify pts thr, thr, ?_, by omega, rfl, le_refl _⟩
      simp only [simplifyLoopFuel]
      rw [if_neg (by omega)]
    | succ n ih =>
      intro thr h0
      by_cases hbig : maxVerts < (simplify pts thr).length
      · obtain ⟨res, thr', hloop, hlen, hres, hthr⟩ :=
          ih (thr + 1 / 2) (by push_cast at h0 ⊢; linarith)
        refine ⟨res, thr', ?_, hlen, hres, by linarith⟩
        simp only [simplifyLoopFuel]
        rw [if_pos hbig]
        exact hloop
      · refine ⟨simplify pts thr, thr, ?_, by omega, rfl, le_refl _⟩
        simp only [simplifyLoopFuel]
        rw [if_neg hbig]
  obtain ⟨n, hn⟩ : ∃ n : ℕ, ε0 ≤ 1 / 2 + (n : ℚ) / 2 := by
    refine ⟨(⌈2 * ε0⌉).toNat, ?_⟩
    rcases le_or_lt ε0 0 with h | h
    · have hnn : (0 : ℚ) ≤ (((⌈2 * ε0⌉).toNat : ℕ) : ℚ) / 2 := by positivity
      linarith
    · have h1 : (2 : ℚ) * ε0 ≤ (⌈2 * ε0⌉ : ℚ) := Int.le_ceil _
      have h2 : (⌈2 * ε0⌉ : ℤ) ≤ ((⌈2 * ε0⌉).toNat : ℤ) := Int.self_le_toNat _
      have h2' : ((⌈2 * ε0⌉ : ℤ) : ℚ) ≤ (((⌈2 * ε0⌉).toNat : ℕ) : ℚ) := by
        exact_mod_cast h2
      push_cast at h2' ⊢
      linarith
  obtain ⟨res, thr', hloop, hlen, hres, hthr⟩ := key n (1 / 2) hn
  exact ⟨n + 1, res, thr', hloop, hlen, hres, hthr⟩

/-- A concrete conformant simplifier for witnesses: below threshold 1 it keeps
the outline, from threshold 1 on it collapses to the first 3 points. -/
def simplifyW : List S2OPoint → ℚ → List S2OPoint :=
  fun pts eps => if eps < 1 then pts else pts.take 3

/-- A concrete 4-point outline for witnesses. -/
def ptsW : List S2OPoint := [⟨0, 0⟩, ⟨5, 0⟩, ⟨5, 5⟩, ⟨0, 5⟩]

/-- Witness for C5 at the concrete simplifier `simplifyW`, outline `ptsW`, and
`max_verts = 3`. -/
theorem simplifyLoop_adaptive_search_witness :
    ptsW ≠ [] ∧ 3 ≤ 3 ∧
      (∃ ε0 : ℚ, ∀ ε : ℚ, ε0 ≤ ε → (simplifyW ptsW ε).length ≤ 3) ∧
      (∃ (fuel : ℕ) (res : List S2OPoint) (thr : ℚ),
        simplifyLoopFuel simplifyW ptsW 3 fuel (1 / 2) = some (res, thr) ∧
          res.length ≤ 3 ∧ res = simplifyW ptsW thr ∧ 1 / 2 ≤ thr) :=
  ⟨by decide, by norm_num,
    ⟨1, fun ε hε => by simp [simplifyW, not_lt.mpr hε, ptsW]⟩,
    simplifyLoop_adaptive_search simplifyW ptsW 3 (by decide) (by norm_num)
      ⟨1, fun ε hε => by simp [simplifyW, not_lt.mpr hε, ptsW]⟩⟩

/-! ### Claim C1: what actually happens when the packer fails -/

/-- Externals for a pack-failure run: the outline of each sprite spans
2048×2048 pixels and the packer (whose contract is to fail when the padded
rectangles cannot be placed within `(max_width, max_height)`) reports
failure. -/
def extC1 : Externals where
  rgba_to_alpha := rgbaAlpha
  alpha_to_thresholded := s2o_alpha_to_thresholded_spec
  dilate_thresholded := s2o_dilate_spec
  thresholded_to_outlined := fun m _ _ => m
  extract_outline_path := fun _ _ _ => [⟨0, 0⟩, ⟨2047, 2047⟩]
  s2o_simplify := fun pts _ => pts
  delaunay := fun pts => (pts, [])
  pack := fun _ _ _ => none
  png_write_ok := true
  json_ctx_ok := true
  json_encode_ok := true
  file_open_ok := true

/-- The default CLI arguments (line 553-558). -/
def argsC1 : AtlascArgs :=
  ⟨20, 2048, 2048, 2, 1, false, false, 25⟩

/-- A 2048×2048 fully opaque input. -/
def imgC1 : Image := ⟨2048, 2048, fun _ _ => (255, 255, 255, 255)⟩

/-- The sprite record the pack-failure run produces: `sheet_rect` keeps its
zero initialisation because lines 463-474 are skipped. -/
def sprC1 : SpriteRec :=
  ⟨(2048, 2048), ⟨0, 0, 2047, 2047⟩, ⟨0, 0, 0, 0⟩, [], [], []⟩

/-- The full result of the pack-failure run: the packer reported failure,
yet the build continues, derives a 4×4 canvas from the sentinel rectangle by
32-bit wraparound (`INT_MIN - INT_MAX ≡ 1`, aligned to 4), writes both the
PNG and the manifest, and returns success. -/
def resC1 : MakeResult := ⟨[sprC1, sprC1], false, 4, 4, true, true, true⟩

/-- C1 (code bug): for an input set whose padded rectangles the packer cannot
place, `atlasc_make` does not fail: it ignores the `stbrp_pack_rects` return
value, produces a 4×4 canvas from the overflowed sentinel rectangle, writes
both output files, returns success and the process exits 0 — contradicting
the claim that a pack failure is fatal, exits nonzero and writes no files. -/
theorem pack_failure_not_fatal :
    atlasc_make extC1 argsC1 [imgC1, imgC1] 1 1 = some resC1 ∧
      resC1.packed = false ∧ resC1.success = true ∧
      resC1.pngWritten = true ∧ resC1.manifestWritten = true ∧
      resC1.width = 4 ∧ resC1.height = 4 ∧
      atlascExitCode resC1.success = 0 :=
  ⟨rfl, rfl, rfl, rfl, rfl, rfl, rfl, rfl⟩

/-! ### Claim C2: sheet_rect dimensions versus sprite_rect dimensions -/

/-- Externals for a small successful single-sprite build. -/
def extC2 : Externals where
  rgba_to_alpha := rgbaAlpha
  alpha_to_thresholded := s2o_alpha_to_thresholded_spec
  dilate_thresholded := s2o_dilate_spec
  thresholded_to_outlined := fun m _ _ => m
  extract_outline_path := fun _ _ _ => [⟨2, 2⟩, ⟨4, 2⟩, ⟨2, 4⟩]
  s2o_simplify := fun pts _ => pts
  delaunay := fun pts => (pts, [])
  pack := fun _ _ rects => some (rects.map fun _ => (0, 0))
  png_write_ok := true
  json_ctx_ok := true
  json_encode_ok := true
  file_open_ok := true

/-- Arguments with `border = 0`, `padding = 1`, no mesh. -/
def argsC2 : AtlascArgs := ⟨20, 64, 64, 0, 1, false, false, 25⟩

/-- A 7×7 input image. -/
def imgC2 : Image := ⟨7, 7, fun _ _ => (0, 0, 0, 0)⟩

/-- The sprite of the C2 run: `sprite_rect` is 2×2, but the recorded
`sheet_rect` is 4×4 (placed rect of the padded 4×4 box, shrunk by the zero
border). -/
def sprC2 : SpriteRec := ⟨(7, 7), ⟨2, 2, 4, 4⟩, ⟨0, 0, 4, 4⟩, [], [], []⟩

/-- The result of the C2 run. -/
def resC2 : MakeResult := ⟨[sprC2], true, 4, 4, true, true, true⟩

/-- C2 counterexample: in a fully successful build with `padding = 1`, the
recorded `sheet_rect` is 2 pixels wider and taller than `sprite_rect`
(the padding band stays inside `sheet_rect`), so the claimed equality of
widths and heights is false on the code. -/
theorem sheet_rect_size_counterexample :
    atlasc_make extC2 argsC2 [imgC2] 1 1 = some resC2 ∧
      resC2.packed = true ∧ resC2.success = true ∧
      sprC2 ∈ resC2.sprites ∧
      rectW sprC2.sprite_rect = 2 ∧ rectW sprC2.sheet_rect = 4 ∧
      ¬(rectW sprC2.sheet_rect = rectW sprC2.sprite_rect ∧
        rectH sprC2.sheet_rect = rectH sprC2.sprite_rect) :=
  ⟨rfl, rfl, rfl, by decide, by decide, by decide, by decide⟩

/-- The UV stage does not change the number of sprites. -/
theorem uvStage_length (args : AtlascArgs) (l : List SpriteRec) :
    (uvStage args l).length = l.length := by
  unfold uvStage
  by_cases hm : args.mesh
  · rw [if_pos hm, List.length_map]
  · rw [if_neg hm]

/-- Unfolding `packStage` when the packer succeeds. -/
theorem packStage_eq_of_some {ext : Externals} {args : AtlascArgs}
    {sprites : List SpriteRec} {poss : List (ℤ × ℤ)}
    (h : ext.pack args.max_width args.max_height (rpDimsOf args sprites) =
      some poss) :
    packStage ext args sprites =
      (List.zipWith
        (fun (s : SpriteRec) (sr : SxIRect) =>
          { s with sheet_rect := sx_irect_expand sr (-args.border) (-args.border) })
        sprites
        (List.zipWith (fun (d : ℤ × ℤ) (p : ℤ × ℤ) => sx_irectwh p.1 p.2 d.1 d.2)
          (rpDimsOf args sprites) poss),
       (List.zipWith (fun (d : ℤ × ℤ) (p : ℤ × ℤ) => sx_irectwh p.1 p.2 d.1 d.2)
          (rpDimsOf args sprites) poss).foldl
         (fun r (sr : SxIRect) =>
           sx_irect_add_point (sx_irect_add_point r ⟨sr.xmin, sr.ymin⟩)
             ⟨sr.xmax, sr.ymax⟩)
         sentinelRect,
       true) := by
  unfold packStage
  rw [h]

/-- Unfolding `packStage` when the packer fails. -/
theorem packStage_eq_of_none {ext : Externals} {args : AtlascArgs}
    {sprites : List SpriteRec}
    (h : ext.pack args.max_width args.max_height (rpDimsOf args sprites) =
      none) :
    packStage ext args sprites = (sprites, sentinelRect, false) := by
  unfold packStage
  rw [h]

/-- Positional effect of the UV stage on the rectangles: it never changes
`sheet_rect` or `sprite_rect`. -/
theorem uvStage_getElem?_rects (args : AtlascArgs) (l : List SpriteRec)
    (j : ℕ) {s : SpriteRec} (hs : (uvStage args l)[j]? = some s) :
    ∃ t, l[j]? = some t ∧ s.sheet_rect = t.sheet_rect ∧
      s.sprite_rect = t.sprite_rect := by
  unfold uvStage at hs
  by_cases hm : args.mesh
  · rw [if_pos hm, List.getElem?_map] at hs
    rcases ht : l[j]? with _ | t
    · rw [ht] at hs; exact absurd hs (by simp)
    · rw [ht] at hs
      simp only [Option.map_some', Option.some.injEq] at hs
      refine ⟨t, rfl, ?_, ?_⟩ <;>
        · rw [← hs]
          by_cases he : t.pts.isEmpty
          · rw [if_pos he]
          · rw [if_neg he]
  · rw [if_neg hm] at hs
    exact ⟨s, hs, rfl, rfl⟩

/-- C2 (amended): in every `atlasc_make` run in which the packer succeeded,
each sprite's recorded `sheet_rect` is exactly `2 * padding` wider and taller
than its `sprite_rect`:
`sheet_rect.xmax - sheet_rect.xmin = (sprite_rect.xmax - sprite_rect.xmin) + 2 * padding`,
and likewise for heights (the two agree exactly when `padding = 0`). -/
theorem sheet_rect_size (ext : Externals) (args : AtlascArgs)
    (imgs : List Image) (fS fF : ℕ) (r : MakeResult)
    (hmk : atlasc_make ext args imgs fS fF = some r)
    (hpk : r.packed = true) :
    ∀ s ∈ r.sprites,
      rectW s.sheet_rect = rectW s.sprite_rect + 2 * args.padding ∧
        rectH s.sheet_rect = rectH s.sprite_rect + 2 * args.padding := by
  unfold atlasc_make at hmk
  rcases hms : imgs.mapM (fun img => processSprite ext args img fS fF) with _ | sprites
  · rw [hms] at hmk; exact absurd hmk (by simp)
  rw [hms] at hmk
  simp only [Option.some.injEq] at hmk
  subst hmk
  -- the pack branch must have succeeded
  rcases hpack : ext.pack args.max_width args.max_height (rpDimsOf args sprites)
    with _ | poss
  · rw [packStage_eq_of_none hpack] at hpk
    exact absurd hpk (by simp)
  rw [packStage_eq_of_some hpack]
  dsimp only
  -- positional correspondence through uvStage ∘ zipWith ∘ map
  intro s hs
  rw [List.mem_iff_getElem?] at hs
  obtain ⟨i, hi⟩ := hs
  obtain ⟨t, ht, hsheet, hsprite⟩ := uvStage_getElem?_rects args _ i hi
  rw [hsheet, hsprite]
  rw [List.getElem?_zipWith_eq_some] at ht
  obtain ⟨a, sr, ha, hsr, hasr⟩ := ht
  rw [List.getElem?_zipWith_eq_some] at hsr
  obtain ⟨d, p, hd, hp, hdp⟩ := hsr
  simp only [rpDimsOf, List.getElem?_map, ha, Option.map_some',
    Option.some.injEq] at hd
  subst hasr
  subst hdp
  subst hd
  simp only [sx_irectwh, sx_irect_expand, rectW, rectH]
  constructor <;> ring

/-- Witness for C2 (amended) at the concrete successful build of `extC2`. -/
theorem sheet_rect_size_witness :
    rectW sprC2.sheet_rect = rectW sprC2.sprite_rect + 2 * argsC2.padding ∧
      rectH sprC2.sheet_rect = rectH sprC2.sprite_rect + 2 * argsC2.padding :=
  sheet_rect_size extC2 argsC2 [imgC2] 1 1 resC2 rfl rfl sprC2 (by decide)

/-! ### Claim C6: the offset formula as the specification words it -/

open Classical in
/-- The per-vertex offset step as the specification words it (§4.4): `e1`,
`e2` are the unit edge vectors from `v_i` toward its previous and next
neighbours (wrapping cyclically), `z` the z-component of their cross
product; if `|z| < 1e-5` the displacement is `a · (-e1.y, e1.x)`, otherwise
`a · k · normalize(e1+e2)` with `k = -1` for `z < 0` and `k = +1` for
`z > 0`; `a = 2.0`; the displaced point is floored to integer and clamped to
`[0,w] × [0,h]`. -/
noncomputable def offset_pt_spec (pts : List S2OPoint) (ptIdx : ℕ)
    (w h : ℤ) : List S2OPoint × Bool :=
  let numPts := pts.length
  let ipt := pts.getD ptIdx default
  let pt : ℝ × ℝ := ((ipt.x : ℝ), (ipt.y : ℝ))
  let prevI := if 0 < ptIdx then pts.getD (ptIdx - 1) default
               else pts.getD (numPts - 1) default
  let nextI := if ptIdx + 1 < numPts then pts.getD (ptIdx + 1) default
               else pts.getD 0 default
  let e1 := sx_vec2_norm ((prevI.x : ℝ) - pt.1, (prevI.y : ℝ) - pt.2)
  let e2 := sx_vec2_norm ((nextI.x : ℝ) - pt.1, (nextI.y : ℝ) - pt.2)
  let z := e1.1 * e2.2 - e1.2 * e2.1
  let n : ℝ × ℝ :=
    if |z| < 1 / 100000 then
      (2 * -e1.2, 2 * e1.1)
    else
      let k : ℝ := if z < 0 then -1 else 1
      let u := sx_vec2_norm (e1.1 + e2.1, e1.2 + e2.2)
      (2 * k * u.1, 2 * k * u.2)
  let ix := sx_clamp ⌊pt.1 + n.1⌋ 0 w
  let iy := sx_clamp ⌊pt.2 + n.2⌋ 0 h
  (pts.set ptIdx ⟨ix, iy⟩, !(ipt.x == ix && ipt.y == iy))

/-- Truncation toward zero followed by the `[0, w]` clamp agrees with floor
followed by the same clamp: they differ only on negative reals, where both
clamp to 0. -/
theorem sx_clamp_cIntOfReal (r : ℝ) (w : ℤ) (hw : 0 ≤ w) :
    sx_clamp (cIntOfReal r) 0 w = sx_clamp ⌊r⌋ 0 w := by
  unfold cIntOfReal sx_clamp
  by_cases h : 0 ≤ r
  · rw [if_pos h]
  · rw [if_neg h]
    push_neg at h
    have hceil : ⌈r⌉ ≤ 0 := Int.ceil_le.mpr (by simpa using h.le)
    have hfloor : ⌊r⌋ ≤ 0 := Int.floor_nonpos h.le
    omega

/-- C6: one correction step of `atlasc__offset_pt` with amount `a = 2.0`
computes exactly the displacement the specification describes — with `e1`,
`e2` the unit edge vectors toward the cyclically-previous and next
neighbours and `z` the cross product's z-component, the displacement is
`a · (-e1.y, e1.x)` when `|z| < 1e-5` and `a · k · normalize(e1+e2)` with
`k = sign`-selection otherwise — and the displaced point is floored to
integer and clamped to `[0,w] × [0,h]` (the C truncation toward zero agrees
with flooring once clamped to a non-negative range). -/
theorem offset_pt_matches_spec (pts : List S2OPoint) (ptIdx : ℕ) (w h : ℤ)
    (hw : 0 ≤ w) (hh : 0 ≤ h) :
    atlasc__offset_pt pts ptIdx 2 w h = offset_pt_spec pts ptIdx w h := by
  simp only [atlasc__offset_pt, offset_pt_spec, sx_equal, sub_zero]
  set ipt := pts.getD ptIdx default with hipt
  set prevI := (if 0 < ptIdx then pts.getD (ptIdx - 1) default
    else pts.getD (pts.length - 1) default) with hprev
  set nextI := (if ptIdx + 1 < pts.length then pts.getD (ptIdx + 1) default
    else pts.getD 0 default) with hnext
  set e1 := sx_vec2_norm ((prevI.x : ℝ) - (ipt.x : ℝ), (prevI.y : ℝ) - (ipt.y : ℝ))
    with he1
  set e2 := sx_vec2_norm ((nextI.x : ℝ) - (ipt.x : ℝ), (nextI.y : ℝ) - (ipt.y : ℝ))
    with he2
  by_cases hz : |e1.1 * e2.2 - e1.2 * e2.1| < 1 / 100000
  · rw [if_pos hz, if_pos hz]
    have hx : (ipt.x : ℝ) + -e1.2 * 2 = (ipt.x : ℝ) + 2 * -e1.2 := by ring
    have hy : (ipt.y : ℝ) + e1.1 * 2 = (ipt.y : ℝ) + 2 * e1.1 := by ring
    rw [hx, hy, sx_clamp_cIntOfReal _ w hw, sx_clamp_cIntOfReal _ h hh]
  · rw [if_neg hz, if_neg hz]
    set k : ℝ := if e1.1 * e2.2 - e1.2 * e2.1 < 0 then -1 else 1 with hk
    set u := sx_vec2_norm (e1.1 + e2.1, e1.2 + e2.2) with hu
    have hx : (ipt.x : ℝ) + u.1 * (k * 2) = (ipt.x : ℝ) + 2 * k * u.1 := by ring
    have hy : (ipt.y : ℝ) + u.2 * (k * 2) = (ipt.y : ℝ) + 2 * k * u.2 := by ring
    rw [hx, hy, sx_clamp_cIntOfReal _ w hw, sx_clamp_cIntOfReal _ h hh]

/-- Witness for C6 at a concrete 3-point polygon on a 3×3 grid. -/
theorem offset_pt_matches_spec_witness :
    (0 : ℤ) ≤ 3 ∧ (0 : ℤ) ≤ 3 ∧
      atlasc__offset_pt [⟨1, 1⟩, ⟨2, 0⟩, ⟨0, 2⟩] 0 2 3 3 =
        offset_pt_spec [⟨1, 1⟩, ⟨2, 0⟩, ⟨0, 2⟩] 0 3 3 :=
  ⟨by norm_num, by norm_num,
    offset_pt_matches_spec [⟨1, 1⟩, ⟨2, 0⟩, ⟨0, 2⟩] 0 3 3 (by norm_num) (by norm_num)⟩

/-- C7: in every build with mesh enabled, the mask handed to the outline
correction step (`atlasc__fix_outline_pts`, called at lines 252-253 from the
argument `atlasc_make` passes at line 432) is the pre-dilation thresholded
mask — the true silhouette — while the dilated mask is consumed only by the
outline-extraction chain (lines 412-421). -/
theorem correction_uses_pre_dilation_mask (ext : Externals) (args : AtlascArgs)
    (img : Image) (fS fF : ℕ) (hm : args.mesh = true) :
    processSprite ext args img fS fF =
      (simplifyLoopFuel ext.s2o_simplify (spriteOutlinePts ext args img)
          args.max_verts_per_mesh fS (1 / 2)).bind (fun st =>
        (atlasc__fix_outline_pts (spriteThresholded ext args img)
            img.w img.h st.1 fF).map (fun fixedPts =>
          ⟨(img.w, img.h), spriteRectOf (spriteOutlinePts ext args img),
            ⟨0, 0, 0, 0⟩, (ext.delaunay fixedPts).1, [],
            (ext.delaunay fixedPts).2⟩)) ∧
      spriteOutlinePts ext args img =
        ext.extract_outline_path
          (ext.thresholded_to_outlined
            (ext.dilate_thresholded (spriteThresholded ext args img)
              img.w img.h)
            img.w img.h)
          img.w img.h := by
  constructor
  · unfold processSprite atlasc__make_mesh
    rw [if_pos hm]
    rcases simplifyLoopFuel ext.s2o_simplify (spriteOutlinePts ext args img)
        args.max_verts_per_mesh fS (1 / 2) with _ | st
    · rfl
    · simp only [Option.some_bind]
      rcases atlasc__fix_outline_pts (spriteThresholded ext args img)
          img.w img.h st.1 fF with _ | fixedPts
      · rfl
      · rfl
  · rfl

/-- Witness for C7 at the concrete externals `extC2` with mesh enabled. -/
theorem correction_uses_pre_dilation_mask_witness :
    processSprite extC2 ⟨20, 64, 64, 0, 1, false, true, 25⟩ imgC2 1 9 =
      (simplifyLoopFuel extC2.s2o_simplify
          (spriteOutlinePts extC2 ⟨20, 64, 64, 0, 1, false, true, 25⟩ imgC2)
          25 1 (1 / 2)).bind (fun st =>
        (atlasc__fix_outline_pts
            (spriteThresholded extC2 ⟨20, 64, 64, 0, 1, false, true, 25⟩ imgC2)
            imgC2.w imgC2.h st.1 9).map (fun fixedPts =>
          ⟨(imgC2.w, imgC2.h),
            spriteRectOf
              (spriteOutlinePts extC2 ⟨20, 64, 64, 0, 1, false, true, 25⟩ imgC2),
            ⟨0, 0, 0, 0⟩, (extC2.delaunay fixedPts).1, [],
            (extC2.delaunay fixedPts).2⟩)) ∧
      spriteOutlinePts extC2 ⟨20, 64, 64, 0, 1, false, true, 25⟩ imgC2 =
        extC2.extract_outline_path
          (extC2.thresholded_to_outlined
            (extC2.dilate_thresholded
              (spriteThresholded extC2 ⟨20, 64, 64, 0, 1, false, true, 25⟩ imgC2)
              imgC2.w imgC2.h)
            imgC2.w imgC2.h)
          imgC2.w imgC2.h :=
  correction_uses_pre_dilation_mask extC2 ⟨20, 64, 64, 0, 1, false, true, 25⟩
    imgC2 1 9 rfl

/-! ### Concrete evaluation of `atlasc__offset_pt` over `ℝ`

Helper lemmas to evaluate the truncation-and-clamp of a real value from
rational bounds, the normalisation of concrete integer vectors, and the two
symmetric offset calls on a 2-point polygon (where `prev = next`, so the
cross product vanishes and the collinear branch is always taken). -/

/-- Truncate-and-clamp lands on `k` when `k ≤ r < k+1` with `0 ≤ k ≤ w`. -/
theorem sx_clamp_cIntOfReal_eq {r : ℝ} {k w : ℤ} (hk : 0 ≤ k) (hkw : k ≤ w)
    (h1 : (k : ℝ) ≤ r) (h2 : r < k + 1) :
    sx_clamp (cIntOfReal r) 0 w = k := by
  have h0 : (0 : ℝ) ≤ r := le_trans (by exact_mod_cast hk) h1
  have hfl : ⌊r⌋ = k := Int.floor_eq_iff.mpr ⟨h1, by push_cast; exact_mod_cast h2⟩
  rw [cIntOfReal, if_pos h0, hfl]
  simp only [sx_clamp]
  omega

/-- Truncate-and-clamp lands on `0` for any `r < 1` (negative values truncate
toward zero and clamp at the lower bound). -/
theorem sx_clamp_cIntOfReal_zero {r : ℝ} {w : ℤ} (h2 : r < 1) (hw : 0 ≤ w) :
    sx_clamp (cIntOfReal r) 0 w = 0 := by
  unfold cIntOfReal sx_clamp
  by_cases h : 0 ≤ r
  · rw [if_pos h]
    have hfl : ⌊r⌋ = 0 :=
      Int.floor_eq_iff.mpr ⟨by exact_mod_cast h, by norm_num; exact h2⟩
    rw [hfl]
    omega
  · rw [if_neg h]
    push_neg at h
    have hceil : ⌈r⌉ ≤ 0 := Int.ceil_le.mpr (by simpa using h.le)
    omega

/-- Evaluate `sx_vec2_norm` on a vector of known squared length. -/
theorem sx_vec2_norm_eval {a b s : ℝ} (hs : a * a + b * b = s) :
    sx_vec2_norm (a, b) =
      (a * (1 / Real.sqrt s), b * (1 / Real.sqrt s)) := by
  simp only [sx_vec2_norm, hs]

/-- Numeric bounds for `√5`. -/
theorem sqrt5_bounds : 2 < Real.sqrt 5 ∧ Real.sqrt 5 < 4 :=
  ⟨(Real.lt_sqrt (by norm_num)).mpr (by norm_num),
    (Real.sqrt_lt' (by norm_num)).mpr (by norm_num)⟩

/-- Numeric bounds for `√8`. -/
theorem sqrt8_bounds : 2 < Real.sqrt 8 ∧ Real.sqrt 8 < 4 :=
  ⟨(Real.lt_sqrt (by norm_num)).mpr (by norm_num),
    (Real.sqrt_lt' (by norm_num)).mpr (by norm_num)⟩

/-- `√4 = 2`. -/
theorem sqrt4_eq : Real.sqrt 4 = 2 := by
  rw [show (4 : ℝ) = 2 ^ 2 by norm_num, Real.sqrt_sq (by norm_num : (0 : ℝ) ≤ 2)]

/-- On a 2-point polygon, the offset of point 0: both neighbours are point 1,
the edges coincide, the cross product is zero, and the collinear branch
displaces by `2 · perp(e1)`. -/
theorem offset_pt_two_head (A B A' : S2OPoint) (w h : ℤ)
    (hx : sx_clamp (cIntOfReal ((A.x : ℝ) +
      -(sx_vec2_norm ((B.x : ℝ) - (A.x : ℝ), (B.y : ℝ) - (A.y : ℝ))).2 * 2)) 0 w
        = A'.x)
    (hy : sx_clamp (cIntOfReal ((A.y : ℝ) +
      (sx_vec2_norm ((B.x : ℝ) - (A.x : ℝ), (B.y : ℝ) - (A.y : ℝ))).1 * 2)) 0 h
        = A'.y) :
    atlasc__offset_pt [A, B] 0 2 w h =
      ([A', B], !(A.x == A'.x && A.y == A'.y)) := by
  simp only [atlasc__offset_pt, sx_equal] at hx hy ⊢
  simp [show ∀ u v : ℝ, u * v - v * u = 0 from fun u v => by ring,
    abs_zero, show ((0 : ℝ) < (100000 : ℝ)⁻¹) from by norm_num] at hx hy ⊢
  rw [hx, hy]
  exact ⟨rfl, rfl⟩

/-- On a 2-point polygon, the offset of point 1: both neighbours are point 0.
-/
theorem offset_pt_two_tail (A B B' : S2OPoint) (w h : ℤ)
    (hx : sx_clamp (cIntOfReal ((B.x : ℝ) +
      -(sx_vec2_norm ((A.x : ℝ) - (B.x : ℝ), (A.y : ℝ) - (B.y : ℝ))).2 * 2)) 0 w
        = B'.x)
    (hy : sx_clamp (cIntOfReal ((B.y : ℝ) +
      (sx_vec2_norm ((A.x : ℝ) - (B.x : ℝ), (A.y : ℝ) - (B.y : ℝ))).1 * 2)) 0 h
        = B'.y) :
    atlasc__offset_pt [A, B] 1 2 w h =
      ([A, B'], !(B.x == B'.x && B.y == B'.y)) := by
  simp only [atlasc__offset_pt, sx_equal] at hx hy ⊢
  simp [show ∀ u v : ℝ, u * v - v * u = 0 from fun u v => by ring,
    abs_zero, show ((0 : ℝ) < (100000 : ℝ)⁻¹) from by norm_num] at hx hy ⊢
  rw [hx, hy]
  exact ⟨rfl, rfl⟩

/-! ### C10: a non-terminating run of `atlasc__fix_outline_pts`

Concrete instance: a 3×3 grid whose thresholded mask is set exactly at
`(0,0)`, `(1,0)` and `(1,1)`, and the 2-point outline `[(2,2),(0,1)]` (both
points off the mask, as the source's debug assert expects).  The inner
`while` loop of edge 0 revisits the same point configuration every 5
iterations: every traversed segment still crosses the mask, every offset
still moves its point, and the state returns to the start.  The C loop has
no other exit, so it runs forever; the fuelled embedding returns `none` for
every fuel. -/

/-- The thresholded mask of the C10 instance. -/
def maskC10 : MaskF := fun x y =>
  (x == 0 && y == 0) || (x == 1 && y == 0) || (x == 1 && y == 1)

/-- The outline points of the C10 instance. -/
def ptsC10 : List S2OPoint := [⟨2, 2⟩, ⟨0, 1⟩]

/-- Numeric bounds for `1/√5`. -/
theorem inv_sqrt5_bounds :
    (1 : ℝ) / 4 < 1 / Real.sqrt 5 ∧ (1 : ℝ) / Real.sqrt 5 < 1 / 2 := by
  obtain ⟨h1, h2⟩ := sqrt5_bounds
  have hpos : (0 : ℝ) < Real.sqrt 5 := by linarith
  constructor
  · rw [div_lt_div_iff (by norm_num) hpos]; linarith
  · rw [div_lt_div_iff hpos (by norm_num)]; linarith

/-- Numeric bounds for `1/√8`. -/
theorem inv_sqrt8_bounds :
    (1 : ℝ) / 4 < 1 / Real.sqrt 8 ∧ (1 : ℝ) / Real.sqrt 8 < 1 / 2 := by
  obtain ⟨h1, h2⟩ := sqrt8_bounds
  have hpos : (0 : ℝ) < Real.sqrt 8 := by linarith
  constructor
  · rw [div_lt_div_iff (by norm_num) hpos]; linarith
  · rw [div_lt_div_iff hpos (by norm_num)]; linarith

/-- Offset evaluation T1: `[(2,2),(0,1)]`, point 0 moves to `(2,0)`. -/
theorem c10_T1 : atlasc__offset_pt [(⟨2, 2⟩ : S2OPoint), ⟨0, 1⟩] 0 2 3 3 =
    ([⟨2, 0⟩, ⟨0, 1⟩], true) := by
  obtain ⟨hl, hu⟩ := inv_sqrt5_bounds
  refine Eq.trans (offset_pt_two_head ⟨2, 2⟩ ⟨0, 1⟩ ⟨2, 0⟩ 3 3 ?_ ?_) (by decide)
  · show sx_clamp (cIntOfReal (((2 : ℤ) : ℝ) +
      -(sx_vec2_norm (((0 : ℤ) : ℝ) - ((2 : ℤ) : ℝ),
        ((1 : ℤ) : ℝ) - ((2 : ℤ) : ℝ))).2 * 2)) 0 3 = (2 : ℤ)
    rw [show ((0 : ℤ) : ℝ) - ((2 : ℤ) : ℝ) = -2 by norm_num,
        show ((1 : ℤ) : ℝ) - ((2 : ℤ) : ℝ) = -1 by norm_num,
        sx_vec2_norm_eval (by norm_num : (-2 : ℝ) * (-2) + (-1 : ℝ) * (-1) = 5)]
    exact sx_clamp_cIntOfReal_eq (by norm_num) (by norm_num)
      (by push_cast; linarith) (by push_cast; linarith)
  · show sx_clamp (cIntOfReal (((2 : ℤ) : ℝ) +
      (sx_vec2_norm (((0 : ℤ) : ℝ) - ((2 : ℤ) : ℝ),
        ((1 : ℤ) : ℝ) - ((2 : ℤ) : ℝ))).1 * 2)) 0 3 = (0 : ℤ)
    rw [show ((0 : ℤ) : ℝ) - ((2 : ℤ) : ℝ) = -2 by norm_num,
        show ((1 : ℤ) : ℝ) - ((2 : ℤ) : ℝ) = -1 by norm_num,
        sx_vec2_norm_eval (by norm_num : (-2 : ℝ) * (-2) + (-1 : ℝ) * (-1) = 5)]
    exact sx_clamp_cIntOfReal_eq (by norm_num) (by norm_num)
      (by push_cast; linarith) (by push_cast; linarith)

/-- Offset evaluation T2: `[(2,0),(0,1)]`, point 1 moves to `(0,2)`. -/
theorem c10_T2 : atlasc__offset_pt [(⟨2, 0⟩ : S2OPoint), ⟨0, 1⟩] 1 2 3 3 =
    ([⟨2, 0⟩, ⟨0, 2⟩], true) := by
  obtain ⟨hl, hu⟩ := inv_sqrt5_bounds
  refine Eq.trans (offset_pt_two_tail ⟨2, 0⟩ ⟨0, 1⟩ ⟨0, 2⟩ 3 3 ?_ ?_) (by decide)
  · show sx_clamp (cIntOfReal (((0 : ℤ) : ℝ) +
      -(sx_vec2_norm (((2 : ℤ) : ℝ) - ((0 : ℤ) : ℝ),
        ((0 : ℤ) : ℝ) - ((1 : ℤ) : ℝ))).2 * 2)) 0 3 = (0 : ℤ)
    rw [show ((2 : ℤ) : ℝ) - ((0 : ℤ) : ℝ) = 2 by norm_num,
        show ((0 : ℤ) : ℝ) - ((1 : ℤ) : ℝ) = -1 by norm_num,
        sx_vec2_norm_eval (by norm_num : (2 : ℝ) * 2 + (-1 : ℝ) * (-1) = 5)]
    exact sx_clamp_cIntOfReal_zero (by push_cast; linarith) (by norm_num)
  · show sx_clamp (cIntOfReal (((1 : ℤ) : ℝ) +
      (sx_vec2_norm (((2 : ℤ) : ℝ) - ((0 : ℤ) : ℝ),
        ((0 : ℤ) : ℝ) - ((1 : ℤ) : ℝ))).1 * 2)) 0 3 = (2 : ℤ)
    rw [show ((2 : ℤ) : ℝ) - ((0 : ℤ) : ℝ) = 2 by norm_num,
        show ((0 : ℤ) : ℝ) - ((1 : ℤ) : ℝ) = -1 by norm_num,
        sx_vec2_norm_eval (by norm_num : (2 : ℝ) * 2 + (-1 : ℝ) * (-1) = 5)]
    exact sx_clamp_cIntOfReal_eq (by norm_num) (by norm_num)
      (by push_cast; linarith) (by push_cast; linarith)

/-- Offset evaluation T3: `[(2,0),(0,2)]`, point 0 moves to `(0,0)`. -/
theorem c10_T3 : atlasc__offset_pt [(⟨2, 0⟩ : S2OPoint), ⟨0, 2⟩] 0 2 3 3 =
    ([⟨0, 0⟩, ⟨0, 2⟩], true) := by
  obtain ⟨hl, hu⟩ := inv_sqrt8_bounds
  refine Eq.trans (offset_pt_two_head ⟨2, 0⟩ ⟨0, 2⟩ ⟨0, 0⟩ 3 3 ?_ ?_) (by decide)
  · show sx_clamp (cIntOfReal (((2 : ℤ) : ℝ) +
      -(sx_vec2_norm (((0 : ℤ) : ℝ) - ((2 : ℤ) : ℝ),
        ((2 : ℤ) : ℝ) - ((0 : ℤ) : ℝ))).2 * 2)) 0 3 = (0 : ℤ)
    rw [show ((0 : ℤ) : ℝ) - ((2 : ℤ) : ℝ) = -2 by norm_num,
        show ((2 : ℤ) : ℝ) - ((0 : ℤ) : ℝ) = 2 by norm_num,
        sx_vec2_norm_eval (by norm_num : (-2 : ℝ) * (-2) + (2 : ℝ) * 2 = 8)]
    exact sx_clamp_cIntOfReal_zero (by push_cast; linarith) (by norm_num)
  · show sx_clamp (cIntOfReal (((0 : ℤ) : ℝ) +
      (sx_vec2_norm (((0 : ℤ) : ℝ) - ((2 : ℤ) : ℝ),
        ((2 : ℤ) : ℝ) - ((0 : ℤ) : ℝ))).1 * 2)) 0 3 = (0 : ℤ)
    rw [show ((0 : ℤ) : ℝ) - ((2 : ℤ) : ℝ) = -2 by norm_num,
        show ((2 : ℤ) : ℝ) - ((0 : ℤ) : ℝ) = 2 by norm_num,
        sx_vec2_norm_eval (by norm_num : (-2 : ℝ) * (-2) + (2 : ℝ) * 2 = 8)]
    exact sx_clamp_cIntOfReal_zero (by push_cast; linarith) (by norm_num)

/-- Offset evaluation T4: `[(0,0),(0,2)]`, point 1 moves to `(2,2)` (the
edge vector is axis-aligned, so the normal is exact). -/
theorem c10_T4 : atlasc__offset_pt [(⟨0, 0⟩ : S2OPoint), ⟨0, 2⟩] 1 2 3 3 =
    ([⟨0, 0⟩, ⟨2, 2⟩], true) := by
  refine Eq.trans (offset_pt_two_tail ⟨0, 0⟩ ⟨0, 2⟩ ⟨2, 2⟩ 3 3 ?_ ?_) (by decide)
  · show sx_clamp (cIntOfReal (((0 : ℤ) : ℝ) +
      -(sx_vec2_norm (((0 : ℤ) : ℝ) - ((0 : ℤ) : ℝ),
        ((0 : ℤ) : ℝ) - ((2 : ℤ) : ℝ))).2 * 2)) 0 3 = (2 : ℤ)
    rw [show ((0 : ℤ) : ℝ) - ((0 : ℤ) : ℝ) = 0 by norm_num,
        show ((0 : ℤ) : ℝ) - ((2 : ℤ) : ℝ) = -2 by norm_num,
        sx_vec2_norm_eval (by norm_num : (0 : ℝ) * 0 + (-2 : ℝ) * (-2) = 4),
        sqrt4_eq]
    exact sx_clamp_cIntOfReal_eq (by norm_num) (by norm_num)
      (by push_cast; norm_num) (by push_cast; norm_num)
  · show sx_clamp (cIntOfReal (((2 : ℤ) : ℝ) +
      (sx_vec2_norm (((0 : ℤ) : ℝ) - ((0 : ℤ) : ℝ),
        ((0 : ℤ) : ℝ) - ((2 : ℤ) : ℝ))).1 * 2)) 0 3 = (2 : ℤ)
    rw [show ((0 : ℤ) : ℝ) - ((0 : ℤ) : ℝ) = 0 by norm_num,
        show ((0 : ℤ) : ℝ) - ((2 : ℤ) : ℝ) = -2 by norm_num,
        sx_vec2_norm_eval (by norm_num : (0 : ℝ) * 0 + (-2 : ℝ) * (-2) = 4),
        sqrt4_eq]
    exact sx_clamp_cIntOfReal_eq (by norm_num) (by norm_num)
      (by push_cast; norm_num) (by push_cast; norm_num)

/-- Offset evaluation T5: `[(0,0),(2,2)]`, point 0 moves to `(0,1)`. -/
theorem c10_T5 : atlasc__offset_pt [(⟨0, 0⟩ : S2OPoint), ⟨2, 2⟩] 0 2 3 3 =
    ([⟨0, 1⟩, ⟨2, 2⟩], true) := by
  obtain ⟨hl, hu⟩ := inv_sqrt8_bounds
  refine Eq.trans (offset_pt_two_head ⟨0, 0⟩ ⟨2, 2⟩ ⟨0, 1⟩ 3 3 ?_ ?_) (by decide)
  · show sx_clamp (cIntOfReal (((0 : ℤ) : ℝ) +
      -(sx_vec2_norm (((2 : ℤ) : ℝ) - ((0 : ℤ) : ℝ),
        ((2 : ℤ) : ℝ) - ((0 : ℤ) : ℝ))).2 * 2)) 0 3 = (0 : ℤ)
    rw [show ((2 : ℤ) : ℝ) - ((0 : ℤ) : ℝ) = 2 by norm_num,
        sx_vec2_norm_eval (by norm_num : (2 : ℝ) * 2 + (2 : ℝ) * 2 = 8)]
    exact sx_clamp_cIntOfReal_zero (by push_cast; linarith) (by norm_num)
  · show sx_clamp (cIntOfReal (((0 : ℤ) : ℝ) +
      (sx_vec2_norm (((2 : ℤ) : ℝ) - ((0 : ℤ) : ℝ),
        ((2 : ℤ) : ℝ) - ((0 : ℤ) : ℝ))).1 * 2)) 0 3 = (1 : ℤ)
    rw [show ((2 : ℤ) : ℝ) - ((0 : ℤ) : ℝ) = 2 by norm_num,
        sx_vec2_norm_eval (by norm_num : (2 : ℝ) * 2 + (2 : ℝ) * 2 = 8)]
    exact sx_clamp_cIntOfReal_eq (by norm_num) (by norm_num)
      (by push_cast; linarith) (by push_cast; linarith)

/-- Offset evaluation T6: `[(0,1),(2,2)]`, point 1 moves to `(2,0)`. -/
theorem c10_T6 : atlasc__offset_pt [(⟨0, 1⟩ : S2OPoint), ⟨2, 2⟩] 1 2 3 3 =
    ([⟨0, 1⟩, ⟨2, 0⟩], true) := by
  obtain ⟨hl, hu⟩ := inv_sqrt5_bounds
  refine Eq.trans (offset_pt_two_tail ⟨0, 1⟩ ⟨2, 2⟩ ⟨2, 0⟩ 3 3 ?_ ?_) (by decide)
  · show sx_clamp (cIntOfReal (((2 : ℤ) : ℝ) +
      -(sx_vec2_norm (((0 : ℤ) : ℝ) - ((2 : ℤ) : ℝ),
        ((1 : ℤ) : ℝ) - ((2 : ℤ) : ℝ))).2 * 2)) 0 3 = (2 : ℤ)
    rw [show ((0 : ℤ) : ℝ) - ((2 : ℤ) : ℝ) = -2 by norm_num,
        show ((1 : ℤ) : ℝ) - ((2 : ℤ) : ℝ) = -1 by norm_num,
        sx_vec2_norm_eval (by norm_num : (-2 : ℝ) * (-2) + (-1 : ℝ) * (-1) = 5)]
    exact sx_clamp_cIntOfReal_eq (by norm_num) (by norm_num)
      (by push_cast; linarith) (by push_cast; linarith)
  · show sx_clamp (cIntOfReal (((2 : ℤ) : ℝ) +
      (sx_vec2_norm (((0 : ℤ) : ℝ) - ((2 : ℤ) : ℝ),
        ((1 : ℤ) : ℝ) - ((2 : ℤ) : ℝ))).1 * 2)) 0 3 = (0 : ℤ)
    rw [show ((0 : ℤ) : ℝ) - ((2 : ℤ) : ℝ) = -2 by norm_num,
        show ((1 : ℤ) : ℝ) - ((2 : ℤ) : ℝ) = -1 by norm_num,
        sx_vec2_norm_eval (by norm_num : (-2 : ℝ) * (-2) + (-1 : ℝ) * (-1) = 5)]
    exact sx_clamp_cIntOfReal_eq (by norm_num) (by norm_num)
      (by push_cast; linarith) (by push_cast; linarith)

/-- Offset evaluation T7: `[(0,1),(2,0)]`, point 0 moves to `(0,2)`. -/
theorem c10_T7 : atlasc__offset_pt [(⟨0, 1⟩ : S2OPoint), ⟨2, 0⟩] 0 2 3 3 =
    ([⟨0, 2⟩, ⟨2, 0⟩], true) := by
  obtain ⟨hl, hu⟩ := inv_sqrt5_bounds
  refine Eq.trans (offset_pt_two_head ⟨0, 1⟩ ⟨2, 0⟩ ⟨0, 2⟩ 3 3 ?_ ?_) (by decide)
  · show sx_clamp (cIntOfReal (((0 : ℤ) : ℝ) +
      -(sx_vec2_norm (((2 : ℤ) : ℝ) - ((0 : ℤ) : ℝ),
        ((0 : ℤ) : ℝ) - ((1 : ℤ) : ℝ))).2 * 2)) 0 3 = (0 : ℤ)
    rw [show ((2 : ℤ) : ℝ) - ((0 : ℤ) : ℝ) = 2 by norm_num,
        show ((0 : ℤ) : ℝ) - ((1 : ℤ) : ℝ) = -1 by norm_num,
        sx_vec2_norm_eval (by norm_num : (2 : ℝ) * 2 + (-1 : ℝ) * (-1) = 5)]
    exact sx_clamp_cIntOfReal_zero (by push_cast; linarith) (by norm_num)
  · show sx_clamp (cIntOfReal (((1 : ℤ) : ℝ) +
      (sx_vec2_norm (((2 : ℤ) : ℝ) - ((0 : ℤ) : ℝ),
        ((0 : ℤ) : ℝ) - ((1 : ℤ) : ℝ))).1 * 2)) 0 3 = (2 : ℤ)
    rw [show ((2 : ℤ) : ℝ) - ((0 : ℤ) : ℝ) = 2 by norm_num,
        show ((0 : ℤ) : ℝ) - ((1 : ℤ) : ℝ) = -1 by norm_num,
        sx_vec2_norm_eval (by norm_num : (2 : ℝ) * 2 + (-1 : ℝ) * (-1) = 5)]
    exact sx_clamp_cIntOfReal_eq (by norm_num) (by norm_num)
      (by push_cast; linarith) (by push_cast; linarith)

/-- Offset evaluation T8: `[(0,2),(2,0)]`, point 1 moves to `(0,0)`. -/
theorem c10_T8 : atlasc__offset_pt [(⟨0, 2⟩ : S2OPoint), ⟨2, 0⟩] 1 2 3 3 =
    ([⟨0, 2⟩, ⟨0, 0⟩], true) := by
  obtain ⟨hl, hu⟩ := inv_sqrt8_bounds
  refine Eq.trans (offset_pt_two_tail ⟨0, 2⟩ ⟨2, 0⟩ ⟨0, 0⟩ 3 3 ?_ ?_) (by decide)
  · show sx_clamp (cIntOfReal (((2 : ℤ) : ℝ) +
      -(sx_vec2_norm (((0 : ℤ) : ℝ) - ((2 : ℤ) : ℝ),
        ((2 : ℤ) : ℝ) - ((0 : ℤ) : ℝ))).2 * 2)) 0 3 = (0 : ℤ)
    rw [show ((0 : ℤ) : ℝ) - ((2 : ℤ) : ℝ) = -2 by norm_num,
        show ((2 : ℤ) : ℝ) - ((0 : ℤ) : ℝ) = 2 by norm_num,
        sx_vec2_norm_eval (by norm_num : (-2 : ℝ) * (-2) + (2 : ℝ) * 2 = 8)]
    exact sx_clamp_cIntOfReal_zero (by push_cast; linarith) (by norm_num)
  · show sx_clamp (cIntOfReal (((0 : ℤ) : ℝ) +
      (sx_vec2_norm (((0 : ℤ) : ℝ) - ((2 : ℤ) : ℝ),
        ((2 : ℤ) : ℝ) - ((0 : ℤ) : ℝ))).1 * 2)) 0 3 = (0 : ℤ)
    rw [show ((0 : ℤ) : ℝ) - ((2 : ℤ) : ℝ) = -2 by norm_num,
        show ((2 : ℤ) : ℝ) - ((0 : ℤ) : ℝ) = 2 by norm_num,
        sx_vec2_norm_eval (by norm_num : (-2 : ℝ) * (-2) + (2 : ℝ) * 2 = 8)]
    exact sx_clamp_cIntOfReal_zero (by push_cast; linarith) (by norm_num)

/-- Offset evaluation T9: `[(0,2),(0,0)]`, point 0 moves to `(2,2)`. -/
theorem c10_T9 : atlasc__offset_pt [(⟨0, 2⟩ : S2OPoint), ⟨0, 0⟩] 0 2 3 3 =
    ([⟨2, 2⟩, ⟨0, 0⟩], true) := by
  refine Eq.trans (offset_pt_two_head ⟨0, 2⟩ ⟨0, 0⟩ ⟨2, 2⟩ 3 3 ?_ ?_) (by decide)
  · show sx_clamp (cIntOfReal (((0 : ℤ) : ℝ) +
      -(sx_vec2_norm (((0 : ℤ) : ℝ) - ((0 : ℤ) : ℝ),
        ((0 : ℤ) : ℝ) - ((2 : ℤ) : ℝ))).2 * 2)) 0 3 = (2 : ℤ)
    rw [show ((0 : ℤ) : ℝ) - ((0 : ℤ) : ℝ) = 0 by norm_num,
        show ((0 : ℤ) : ℝ) - ((2 : ℤ) : ℝ) = -2 by norm_num,
        sx_vec2_norm_eval (by norm_num : (0 : ℝ) * 0 + (-2 : ℝ) * (-2) = 4),
        sqrt4_eq]
    exact sx_clamp_cIntOfReal_eq (by norm_num) (by norm_num)
      (by push_cast; norm_num) (by push_cast; norm_num)
  · show sx_clamp (cIntOfReal (((2 : ℤ) : ℝ) +
      (sx_vec2_norm (((0 : ℤ) : ℝ) - ((0 : ℤ) : ℝ),
        ((0 : ℤ) : ℝ) - ((2 : ℤ) : ℝ))).1 * 2)) 0 3 = (2 : ℤ)
    rw [show ((0 : ℤ) : ℝ) - ((0 : ℤ) : ℝ) = 0 by norm_num,
        show ((0 : ℤ) : ℝ) - ((2 : ℤ) : ℝ) = -2 by norm_num,
        sx_vec2_norm_eval (by norm_num : (0 : ℝ) * 0 + (-2 : ℝ) * (-2) = 4),
        sqrt4_eq]
    exact sx_clamp_cIntOfReal_eq (by norm_num) (by norm_num)
      (by push_cast; norm_num) (by push_cast; norm_num)

/-- Offset evaluation T10: `[(2,2),(0,0)]`, point 1 moves to `(0,1)`. -/
theorem c10_T10 : atlasc__offset_pt [(⟨2, 2⟩ : S2OPoint), ⟨0, 0⟩] 1 2 3 3 =
    ([⟨2, 2⟩, ⟨0, 1⟩], true) := by
  obtain ⟨hl, hu⟩ := inv_sqrt8_bounds
  refine Eq.trans (offset_pt_two_tail ⟨2, 2⟩ ⟨0, 0⟩ ⟨0, 1⟩ 3 3 ?_ ?_) (by decide)
  · show sx_clamp (cIntOfReal (((0 : ℤ) : ℝ) +
      -(sx_vec2_norm (((2 : ℤ) : ℝ) - ((0 : ℤ) : ℝ),
        ((2 : ℤ) : ℝ) - ((0 : ℤ) : ℝ))).2 * 2)) 0 3 = (0 : ℤ)
    rw [show ((2 : ℤ) : ℝ) - ((0 : ℤ) : ℝ) = 2 by norm_num,
        sx_vec2_norm_eval (by norm_num : (2 : ℝ) * 2 + (2 : ℝ) * 2 = 8)]
    exact sx_clamp_cIntOfReal_zero (by push_cast; linarith) (by norm_num)
  · show sx_clamp (cIntOfReal (((0 : ℤ) : ℝ) +
      (sx_vec2_norm (((2 : ℤ) : ℝ) - ((0 : ℤ) : ℝ),
        ((2 : ℤ) : ℝ) - ((0 : ℤ) : ℝ))).1 * 2)) 0 3 = (1 : ℤ)
    rw [show ((2 : ℤ) : ℝ) - ((0 : ℤ) : ℝ) = 2 by norm_num,
        sx_vec2_norm_eval (by norm_num : (2 : ℝ) * 2 + (2 : ℝ) * 2 = 8)]
    exact sx_clamp_cIntOfReal_eq (by norm_num) (by norm_num)
      (by push_cast; linarith) (by push_cast; linarith)

/-- One iteration of the inner loop when the line test hits and both offsets
move their points. -/
theorem fixEdgeLoop_step (mask : MaskF) (w h : ℤ) (i nextI fuel : ℕ)
    (pts pts1 pts2 : List S2OPoint)
    (ht : atlasc__test_line mask w h (pts.getD i default)
      (pts.getD nextI default) = true)
    (h1 : atlasc__offset_pt pts i 2 w h = (pts1, true))
    (h2 : atlasc__offset_pt pts1 nextI 2 w h = (pts2, true)) :
    fixEdgeLoop mask w h i nextI (fuel + 1) pts =
      fixEdgeLoop mask w h i nextI fuel pts2 := by
  rw [fixEdgeLoop]
  simp only [ht, if_true, h1, h2]

/-- All five states of the C10 cycle make the inner loop of edge 0 run out
of any fuel. -/
theorem c10_cycle : ∀ fuel : ℕ,
    fixEdgeLoop maskC10 3 3 0 1 fuel [(⟨2, 2⟩ : S2OPoint), ⟨0, 1⟩] = none ∧
    fixEdgeLoop maskC10 3 3 0 1 fuel [(⟨2, 0⟩ : S2OPoint), ⟨0, 2⟩] = none ∧
    fixEdgeLoop maskC10 3 3 0 1 fuel [(⟨0, 0⟩ : S2OPoint), ⟨2, 2⟩] = none ∧
    fixEdgeLoop maskC10 3 3 0 1 fuel [(⟨0, 1⟩ : S2OPoint), ⟨2, 0⟩] = none ∧
    fixEdgeLoop maskC10 3 3 0 1 fuel [(⟨0, 2⟩ : S2OPoint), ⟨0, 0⟩] = none := by
  intro fuel
  induction fuel with
  | zero => exact ⟨rfl, rfl, rfl, rfl, rfl⟩
  | succ n ih =>
    obtain ⟨i0, i1, i2, i3, i4⟩ := ih
    refine ⟨?_, ?_, ?_, ?_, ?_⟩
    · rw [fixEdgeLoop_step maskC10 3 3 0 1 n _ _ _ (by decide) c10_T1 c10_T2]
      exact i1
    · rw [fixEdgeLoop_step maskC10 3 3 0 1 n _ _ _ (by decide) c10_T3 c10_T4]
      exact i2
    · rw [fixEdgeLoop_step maskC10 3 3 0 1 n _ _ _ (by decide) c10_T5 c10_T6]
      exact i3
    · rw [fixEdgeLoop_step maskC10 3 3 0 1 n _ _ _ (by decide) c10_T7 c10_T8]
      exact i4
    · rw [fixEdgeLoop_step maskC10 3 3 0 1 n _ _ _ (by decide) c10_T9 c10_T10]
      exact i0

/-- C10 (code bug): on the 3×3 grid whose thresholded mask is
`{(0,0),(1,0),(1,1)}` and the outline `[(2,2),(0,1)]`, the inner `while`
loop of `atlasc__fix_outline_pts` never reaches its exit condition: every
tested segment still crosses the mask and every offset still moves a point,
while the point configuration repeats with period 5.  The fuelled embedding
exhausts every fuel (returns `none`), so the C loop, which differs only in
having no fuel bound, runs forever — contradicting the claim that the
correction always terminates with all outline points adjusted. -/
theorem fix_outline_nontermination : ∀ fuel : ℕ,
    atlasc__fix_outline_pts maskC10 3 3 ptsC10 fuel = none := by
  intro fuel
  have h := (c10_cycle fuel).1
  show fixEdgesFrom maskC10 3 3 fuel (List.range ptsC10.length) ptsC10 = none
  rw [show List.range ptsC10.length = [0, 1] from rfl]
  rw [fixEdgesFrom]
  rw [show (if 0 + 1 < ptsC10.length then 0 + 1 else 0) = 1 from rfl]
  rw [show ptsC10 = [(⟨2, 2⟩ : S2OPoint), ⟨0, 1⟩] from rfl, h]

/-! ### C3: outline correction escapes `sprite_rect`

Concrete instance: a 7×7 image whose thresholded mask is set exactly at
`(3,3)`; the extracted outline is the 8-ring around it (bounding box
`[2,4]²`, which becomes `sprite_rect`), and the simplifier collapses it to
the 2-point polyline `[(3,2),(3,4)]`.  The segment crosses `(3,3)`, so the
correction offsets both points; `atlasc__offset_pt` clamps only to the
image bounds `[0,7]²`, and the first point lands at `(1,2)`, one pixel to
the *left* of `sprite_rect`.  Its uv, `(0,1)`, then falls outside the
padding-contracted `sheet_rect`. -/

/-- The thresholded mask of the C3 instance. -/
def maskC3 : MaskF := fun x y => x == 3 && y == 3

/-- The extracted outline of the C3 instance: the 8-ring around `(3,3)`. -/
def ring8C3 : List S2OPoint :=
  [⟨2, 2⟩, ⟨3, 2⟩, ⟨4, 2⟩, ⟨4, 3⟩, ⟨4, 4⟩, ⟨3, 4⟩, ⟨2, 4⟩, ⟨2, 3⟩]

/-- Externals of the C3 instance: everything succeeds; the simplifier
collapses the ring to a 2-point polyline, the triangulator returns the
points unchanged with no triangles. -/
def extC3 : Externals where
  rgba_to_alpha := fun _ => fun _ _ => 0
  alpha_to_thresholded := fun _ _ _ _ => maskC3
  dilate_thresholded := fun m _ _ => m
  thresholded_to_outlined := fun m _ _ => m
  extract_outline_path := fun _ _ _ => ring8C3
  s2o_simplify := fun _ _ => [⟨3, 2⟩, ⟨3, 4⟩]
  delaunay := fun pts => (pts, [])
  pack := fun _ _ rects => some (rects.map fun _ => (0, 0))
  png_write_ok := true
  json_ctx_ok := true
  json_encode_ok := true
  file_open_ok := true

/-- Arguments of the C3 instance: mesh enabled, `border = 0`, `padding = 1`. -/
def argsC3 : AtlascArgs := ⟨20, 64, 64, 0, 1, false, true, 3⟩

/-- The 7×7 input image of the C3 instance (pixel data irrelevant: the
mask is fixed by `extC3`). -/
def imgC3 : Image := ⟨7, 7, fun _ _ => (0, 0, 0, 0)⟩

/-- The sprite record the C3 run produces: position `(1,2)` escapes
`sprite_rect = [2,4]²` and its uv `(0,1)` escapes the contracted
`sheet_rect`. -/
def sprC3 : SpriteRec :=
  ⟨(7, 7), ⟨2, 2, 4, 4⟩, ⟨0, 0, 4, 4⟩, [⟨1, 2⟩, ⟨4, 2⟩], [⟨0, 1⟩, ⟨3, 1⟩], []⟩

/-- The full result of the C3 run. -/
def resC3 : MakeResult := ⟨[sprC3], true, 4, 4, true, true, true⟩

/-- The containment property claim C3 asserts of a completed run: every
mesh position inside its sprite's `sprite_rect`, every uv inside the
`sheet_rect` contracted inward by `padding`. -/
def meshContainment (args : AtlascArgs) (r : MakeResult) : Prop :=
  ∀ s ∈ r.sprites,
    (∀ p ∈ s.pts,
      s.sprite_rect.xmin ≤ p.x ∧ p.x ≤ s.sprite_rect.xmax ∧
      s.sprite_rect.ymin ≤ p.y ∧ p.y ≤ s.sprite_rect.ymax) ∧
    (∀ q ∈ s.uvs,
      s.sheet_rect.xmin + args.padding ≤ q.x ∧
      q.x ≤ s.sheet_rect.xmax - args.padding ∧
      s.sheet_rect.ymin + args.padding ≤ q.y ∧
      q.y ≤ s.sheet_rect.ymax - args.padding)

/-- Offset evaluation: `[(3,2),(3,4)]`, point 0 moves to `(1,2)` (the edge
is vertical, so the perpendicular is exact). -/
theorem c3_O1 : atlasc__offset_pt [(⟨3, 2⟩ : S2OPoint), ⟨3, 4⟩] 0 2 7 7 =
    ([⟨1, 2⟩, ⟨3, 4⟩], true) := by
  refine Eq.trans (offset_pt_two_head ⟨3, 2⟩ ⟨3, 4⟩ ⟨1, 2⟩ 7 7 ?_ ?_) (by decide)
  · show sx_clamp (cIntOfReal (((3 : ℤ) : ℝ) +
      -(sx_vec2_norm (((3 : ℤ) : ℝ) - ((3 : ℤ) : ℝ),
        ((4 : ℤ) : ℝ) - ((2 : ℤ) : ℝ))).2 * 2)) 0 7 = (1 : ℤ)
    rw [show ((3 : ℤ) : ℝ) - ((3 : ℤ) : ℝ) = 0 by norm_num,
        show ((4 : ℤ) : ℝ) - ((2 : ℤ) : ℝ) = 2 by norm_num,
        sx_vec2_norm_eval (by norm_num : (0 : ℝ) * 0 + (2 : ℝ) * 2 = 4),
        sqrt4_eq]
    exact sx_clamp_cIntOfReal_eq (by norm_num) (by norm_num)
      (by push_cast; norm_num) (by push_cast; norm_num)
  · show sx_clamp (cIntOfReal (((2 : ℤ) : ℝ) +
      (sx_vec2_norm (((3 : ℤ) : ℝ) - ((3 : ℤ) : ℝ),
        ((4 : ℤ) : ℝ) - ((2 : ℤ) : ℝ))).1 * 2)) 0 7 = (2 : ℤ)
    rw [show ((3 : ℤ) : ℝ) - ((3 : ℤ) : ℝ) = 0 by norm_num,
        show ((4 : ℤ) : ℝ) - ((2 : ℤ) : ℝ) = 2 by norm_num,
        sx_vec2_norm_eval (by norm_num : (0 : ℝ) * 0 + (2 : ℝ) * 2 = 4),
        sqrt4_eq]
    exact sx_clamp_cIntOfReal_eq (by norm_num) (by norm_num)
      (by push_cast; norm_num) (by push_cast; norm_num)

/-- Offset evaluation: `[(1,2),(3,4)]`, point 1 moves to `(4,2)`. -/
theorem c3_O2 : atlasc__offset_pt [(⟨1, 2⟩ : S2OPoint), ⟨3, 4⟩] 1 2 7 7 =
    ([⟨1, 2⟩, ⟨4, 2⟩], true) := by
  obtain ⟨hl, hu⟩ := inv_sqrt8_bounds
  refine Eq.trans (offset_pt_two_tail ⟨1, 2⟩ ⟨3, 4⟩ ⟨4, 2⟩ 7 7 ?_ ?_) (by decide)
  · show sx_clamp (cIntOfReal (((3 : ℤ) : ℝ) +
      -(sx_vec2_norm (((1 : ℤ) : ℝ) - ((3 : ℤ) : ℝ),
        ((2 : ℤ) : ℝ) - ((4 : ℤ) : ℝ))).2 * 2)) 0 7 = (4 : ℤ)
    rw [show ((1 : ℤ) : ℝ) - ((3 : ℤ) : ℝ) = -2 by norm_num,
        show ((2 : ℤ) : ℝ) - ((4 : ℤ) : ℝ) = -2 by norm_num,
        sx_vec2_norm_eval (by norm_num : (-2 : ℝ) * (-2) + (-2 : ℝ) * (-2) = 8)]
    exact sx_clamp_cIntOfReal_eq (by norm_num) (by norm_num)
      (by push_cast; linarith) (by push_cast; linarith)
  · show sx_clamp (cIntOfReal (((4 : ℤ) : ℝ) +
      (sx_vec2_norm (((1 : ℤ) : ℝ) - ((3 : ℤ) : ℝ),
        ((2 : ℤ) : ℝ) - ((4 : ℤ) : ℝ))).1 * 2)) 0 7 = (2 : ℤ)
    rw [show ((1 : ℤ) : ℝ) - ((3 : ℤ) : ℝ) = -2 by norm_num,
        show ((2 : ℤ) : ℝ) - ((4 : ℤ) : ℝ) = -2 by norm_num,
        sx_vec2_norm_eval (by norm_num : (-2 : ℝ) * (-2) + (-2 : ℝ) * (-2) = 8)]
    exact sx_clamp_cIntOfReal_eq (by norm_num) (by norm_num)
      (by push_cast; linarith) (by push_cast; linarith)

/-- The inner loop exits immediately (keeping the points) when the line
test misses. -/
theorem fixEdgeLoop_exit (mask : MaskF) (w h : ℤ) (i nextI fuel : ℕ)
    (pts : List S2OPoint)
    (ht : atlasc__test_line mask w h (pts.getD i default)
      (pts.getD nextI default) = false) :
    fixEdgeLoop mask w h i nextI (fuel + 1) pts = some pts := by
  rw [fixEdgeLoop]
  simp only [ht, Bool.false_eq_true, if_false]

/-- The outline correction of the C3 instance: edge 0 crosses the mask and
both endpoints are offset once, after which no edge crosses it. -/
theorem c3_fix_eval :
    atlasc__fix_outline_pts maskC3 7 7 [(⟨3, 2⟩ : S2OPoint), ⟨3, 4⟩] 2 =
      some [⟨1, 2⟩, ⟨4, 2⟩] := by
  have h0 : fixEdgeLoop maskC3 7 7 0 1 2 [(⟨3, 2⟩ : S2OPoint), ⟨3, 4⟩] =
      some [⟨1, 2⟩, ⟨4, 2⟩] := by
    calc fixEdgeLoop maskC3 7 7 0 1 2 [(⟨3, 2⟩ : S2OPoint), ⟨3, 4⟩]
        = fixEdgeLoop maskC3 7 7 0 1 1 [⟨1, 2⟩, ⟨4, 2⟩] :=
          fixEdgeLoop_step maskC3 7 7 0 1 1 _ _ _ (by decide) c3_O1 c3_O2
      _ = some [⟨1, 2⟩, ⟨4, 2⟩] :=
          fixEdgeLoop_exit maskC3 7 7 0 1 0 _ (by decide)
  show fixEdgesFrom maskC3 7 7 2
    (List.range ([(⟨3, 2⟩ : S2OPoint), ⟨3, 4⟩]).length) [⟨3, 2⟩, ⟨3, 4⟩] =
    some [⟨1, 2⟩, ⟨4, 2⟩]
  rw [show List.range ([(⟨3, 2⟩ : S2OPoint), ⟨3, 4⟩]).length = [0, 1] from rfl]
  rw [fixEdgesFrom]
  rw [show (if 0 + 1 < ([(⟨3, 2⟩ : S2OPoint), ⟨3, 4⟩]).length then 0 + 1 else 0)
      = 1 from rfl]
  rw [h0]
  show fixEdgesFrom maskC3 7 7 2 [1] [⟨1, 2⟩, ⟨4, 2⟩] = some [⟨1, 2⟩, ⟨4, 2⟩]
  rw [fixEdgesFrom]
  rw [show (if 1 + 1 < ([(⟨1, 2⟩ : S2OPoint), ⟨4, 2⟩]).length then 1 + 1 else 0)
      = 0 from rfl]
  rw [show fixEdgeLoop maskC3 7 7 1 0 2 [(⟨1, 2⟩ : S2OPoint), ⟨4, 2⟩] =
      some [⟨1, 2⟩, ⟨4, 2⟩] from fixEdgeLoop_exit maskC3 7 7 1 0 1 _ (by decide)]
  rfl

/-- The whole C3 run evaluated: the build succeeds and records `resC3`. -/
theorem c3_make_eval : atlasc_make extC3 argsC3 [imgC3] 1 2 = some resC3 := by
  have hmesh : atlasc__make_mesh extC3 ring8C3 3 maskC3 7 7 1 2 =
      some ⟨[⟨1, 2⟩, ⟨4, 2⟩], []⟩ := by
    rw [atlasc__make_mesh]
    rw [show simplifyLoopFuel extC3.s2o_simplify ring8C3 3 1 (1 / 2) =
      some ([⟨3, 2⟩, ⟨3, 4⟩], 1 / 2) from rfl]
    rw [Option.some_bind]
    show (atlasc__fix_outline_pts maskC3 7 7 [(⟨3, 2⟩ : S2OPoint), ⟨3, 4⟩] 2).map
        (fun fixedPts =>
          (⟨(extC3.delaunay fixedPts).1, (extC3.delaunay fixedPts).2⟩ : MeshData)) =
      some ⟨[⟨1, 2⟩, ⟨4, 2⟩], []⟩
    rw [c3_fix_eval, Option.map_some']
    rfl
  have hps : processSprite extC3 argsC3 imgC3 1 2 =
      some ⟨(7, 7), ⟨2, 2, 4, 4⟩, ⟨0, 0, 0, 0⟩, [⟨1, 2⟩, ⟨4, 2⟩], [], []⟩ := by
    show (atlasc__make_mesh extC3 ring8C3 3 maskC3 7 7 1 2).map
        (fun m => (⟨(7, 7), (⟨2, 2, 4, 4⟩ : SxIRect), ⟨0, 0, 0, 0⟩,
          m.pts, [], m.tris⟩ : SpriteRec)) =
      some ⟨(7, 7), ⟨2, 2, 4, 4⟩, ⟨0, 0, 0, 0⟩, [⟨1, 2⟩, ⟨4, 2⟩], [], []⟩
    rw [hmesh, Option.map_some']
  have hmap : ([imgC3].mapM fun img => processSprite extC3 argsC3 img 1 2) =
      some [⟨(7, 7), ⟨2, 2, 4, 4⟩, ⟨0, 0, 0, 0⟩, [⟨1, 2⟩, ⟨4, 2⟩], [], []⟩] := by
    simp only [List.mapM_cons, List.mapM_nil, hps, Option.pure_def,
      Option.some_bind]
    rfl
  unfold atlasc_make
  rw [hmap]
  rfl

/-- C3 counterexample: a fully successful mesh build (exit code 0) whose
sprite has position `(1,2)` strictly left of its `sprite_rect = [2,4]²`
and uv `(0,1)` strictly outside the padding-contracted `sheet_rect`:
the claimed containment fails. -/
theorem mesh_containment_counterexample :
    atlasc_make extC3 argsC3 [imgC3] 1 2 = some resC3 ∧
    resC3.success = true ∧ atlascExitCode resC3.success = 0 ∧
    argsC3.mesh = true ∧ ¬ meshContainment argsC3 resC3 :=
  ⟨c3_make_eval, rfl, rfl, rfl, by unfold meshContainment; decide⟩

/-- `sx_clamp v 0 w` lies in `[0, w]` when `0 ≤ w`. -/
theorem sx_clamp_mem {v w : ℤ} (hw : 0 ≤ w) :
    0 ≤ sx_clamp v 0 w ∧ sx_clamp v 0 w ≤ w :=
  ⟨le_max_left 0 _, max_le hw (min_le_right v w)⟩

/-- Every point of an `atlasc__offset_pt` result either comes from the
input list or is the freshly clamped point, which lies in `[0,w] × [0,h]`. -/
theorem offset_pt_preserves_bounds {w h : ℤ} (hw : 0 ≤ w) (hh : 0 ≤ h)
    (pts : List S2OPoint) (i : ℕ) (a : ℝ)
    (hin : ∀ p ∈ pts, 0 ≤ p.x ∧ p.x ≤ w ∧ 0 ≤ p.y ∧ p.y ≤ h) :
    ∀ p ∈ (atlasc__offset_pt pts i a w h).1,
      0 ≤ p.x ∧ p.x ≤ w ∧ 0 ≤ p.y ∧ p.y ≤ h := by
  intro p hp
  have hset : ∃ q : S2OPoint, (0 ≤ q.x ∧ q.x ≤ w ∧ 0 ≤ q.y ∧ q.y ≤ h) ∧
      (atlasc__offset_pt pts i a w h).1 = pts.set i q := by
    refine ⟨⟨sx_clamp _ 0 w, sx_clamp _ 0 h⟩,
      ⟨(sx_clamp_mem hw).1, (sx_clamp_mem hw).2,
       (sx_clamp_mem hh).1, (sx_clamp_mem hh).2⟩, rfl⟩
  rcases hset with ⟨q, hq, heq⟩
  rw [heq] at hp
  rcases List.mem_or_eq_of_mem_set hp with hmem | heqp
  · exact hin p hmem
  · rw [heqp]; exact hq

/-- The `fuel+1` unfolding of the inner loop as a plain conditional. -/
theorem fixEdgeLoop_succ_cases (mask : MaskF) (w h : ℤ) (i nextI fuel : ℕ)
    (pts : List S2OPoint) :
    fixEdgeLoop mask w h i nextI (fuel + 1) pts =
      (if atlasc__test_line mask w h (pts.getD i default)
          (pts.getD nextI default) then
        (if (atlasc__offset_pt pts i 2 w h).2 then
          fixEdgeLoop mask w h i nextI fuel
            (atlasc__offset_pt (atlasc__offset_pt pts i 2 w h).1 nextI 2 w h).1
        else some (atlasc__offset_pt pts i 2 w h).1)
      else some pts) := rfl

/-- The inner correction loop keeps every point inside `[0,w] × [0,h]`. -/
theorem fixEdgeLoop_bounded {mask : MaskF} {w h : ℤ} {i nextI : ℕ}
    (hw : 0 ≤ w) (hh : 0 ≤ h) :
    ∀ (fuel : ℕ) (pts out : List S2OPoint),
      (∀ p ∈ pts, 0 ≤ p.x ∧ p.x ≤ w ∧ 0 ≤ p.y ∧ p.y ≤ h) →
      fixEdgeLoop mask w h i nextI fuel pts = some out →
      ∀ p ∈ out, 0 ≤ p.x ∧ p.x ≤ w ∧ 0 ≤ p.y ∧ p.y ≤ h := by
  intro fuel
  induction fuel with
  | zero =>
    intro pts out hin hout
    exact absurd hout (by rw [fixEdgeLoop]; simp)
  | succ n ih =>
    intro pts out hin hout
    rw [fixEdgeLoop_succ_cases] at hout
    split_ifs at hout with h1 h2
    · exact ih _ _ (offset_pt_preserves_bounds hw hh _ _ _
        (offset_pt_preserves_bounds hw hh _ _ _ hin)) hout
    · rw [Option.some.injEq] at hout
      rw [← hout]
      exact offset_pt_preserves_bounds hw hh _ _ _ hin
    · rw [Option.some.injEq] at hout
      rw [← hout]
      exact hin

/-- The outer edge loop keeps every point inside `[0,w] × [0,h]`. -/
theorem fixEdgesFrom_bounded {mask : MaskF} {w h : ℤ} {fuel : ℕ}
    (hw : 0 ≤ w) (hh : 0 ≤ h) :
    ∀ (idxs : List ℕ) (pts out : List S2OPoint),
      (∀ p ∈ pts, 0 ≤ p.x ∧ p.x ≤ w ∧ 0 ≤ p.y ∧ p.y ≤ h) →
      fixEdgesFrom mask w h fuel idxs pts = some out →
      ∀ p ∈ out, 0 ≤ p.x ∧ p.x ≤ w ∧ 0 ≤ p.y ∧ p.y ≤ h := by
  intro idxs
  induction idxs with
  | nil =>
    intro pts out hin hout
    rw [fixEdgesFrom, Option.some.injEq] at hout
    rw [← hout]; exact hin
  | cons i rest ih =>
    intro pts out hin hout
    rw [fixEdgesFrom] at hout
    rcases hl : fixEdgeLoop mask w h i
        (if i + 1 < pts.length then i + 1 else 0) fuel pts with _ | pts'
    · rw [hl] at hout; exact absurd hout (by simp)
    · rw [hl] at hout
      exact ih _ _ (fixEdgeLoop_bounded hw hh fuel pts pts' hin hl) hout

/-- C3 (amended): the outline correction confines points only to the image
bounds, not to `sprite_rect`: whenever every input point of
`atlasc__fix_outline_pts` lies in `[0,w] × [0,h]` (with `0 ≤ w`, `0 ≤ h`),
every point of a completed output lies in `[0,w] × [0,h]` as well.
Containment in `sprite_rect` — and hence of the uvs in the contracted
`sheet_rect` — does not hold (see the counterexample). -/
theorem fix_outline_pts_image_bounds (mask : MaskF) (w h : ℤ)
    (pts out : List S2OPoint) (fuel : ℕ) (hw : 0 ≤ w) (hh : 0 ≤ h)
    (hin : ∀ p ∈ pts, 0 ≤ p.x ∧ p.x ≤ w ∧ 0 ≤ p.y ∧ p.y ≤ h)
    (hout : atlasc__fix_outline_pts mask w h pts fuel = some out) :
    ∀ p ∈ out, 0 ≤ p.x ∧ p.x ≤ w ∧ 0 ≤ p.y ∧ p.y ≤ h :=
  fixEdgesFrom_bounded hw hh (List.range pts.length) pts out hin hout

/-- Witness for the amended C3 theorem at the concrete C3 correction run. -/
theorem fix_outline_pts_image_bounds_witness :
    ((0 : ℤ) ≤ 7 ∧
      (∀ p ∈ ([⟨3, 2⟩, ⟨3, 4⟩] : List S2OPoint),
        0 ≤ p.x ∧ p.x ≤ 7 ∧ 0 ≤ p.y ∧ p.y ≤ 7) ∧
      atlasc__fix_outline_pts maskC3 7 7 [(⟨3, 2⟩ : S2OPoint), ⟨3, 4⟩] 2 =
        some [⟨1, 2⟩, ⟨4, 2⟩]) ∧
    ∀ p ∈ ([⟨1, 2⟩, ⟨4, 2⟩] : List S2OPoint),
      0 ≤ p.x ∧ p.x ≤ 7 ∧ 0 ≤ p.y ∧ p.y ≤ 7 :=
  ⟨⟨by norm_num, by decide, c3_fix_eval⟩,
    fix_outline_pts_image_bounds maskC3 7 7 [⟨3, 2⟩, ⟨3, 4⟩] [⟨1, 2⟩, ⟨4, 2⟩]
      2 (by norm_num) (by norm_num) (by decide) c3_fix_eval⟩

/-- Witness for the C9 uv resolver at the concrete C3 run: the sprite has a
non-empty mesh and its uvs are exactly the translated positions. -/
theorem atlasc_make_uv_resolver_witness :
    atlasc_make extC3 argsC3 [imgC3] 1 2 = some resC3 ∧
    ∀ s ∈ resC3.sprites,
      (s.pts ≠ [] → argsC3.mesh = true →
        s.uvs = s.pts.map (fun p =>
          (⟨p.x - s.sprite_rect.xmin + (s.sheet_rect.xmin + argsC3.padding),
            p.y - s.sprite_rect.ymin + (s.sheet_rect.ymin + argsC3.padding)⟩ :
            S2OPoint)) ∧
        s.uvs.length = s.pts.length) ∧
      (s.pts = [] → s.uvs = []) :=
  ⟨c3_make_eval,
    atlasc_make_uv_resolver extC3 argsC3 [imgC3] 1 2 resC3 c3_make_eval⟩

end Atlasc
